import Mathlib

/-! RKF45: adaptive Runge-Kutta-Fehlberg stepper and initial step-size estimator

A shallow embedding of `src/main.cpp`.

Modelling conventions.

* `typedef double Real` is idealised as exact arithmetic in an arbitrary linearly
  ordered field `R` (instantiate `R := ℚ` to evaluate, `R := ℝ` for analysis).
  Rounding, infinities and NaN are outside the model: statements whose truth on the
  machine is decided by rounding (whether `a + h > a`, whether `(a + h) - h` is
  `a`, whether `h` underflows) are not made here, and concrete inputs are chosen so
  that rounding cannot change an `int` conversion or a comparison.
* `pow` comes from the C library and is a parameter `pow : R → R → R`.
* A C array `Real y[N]` is a function `Fin N → R`; the trial vector `x[N+1]` is
  `Fin (N+1) → R` with `x 0` the time (`TK`) and `x j.succ` the state (`XK`).
* The right-hand sides `f[N]` and the callback are pure: a run is described by the
  trace of right-hand-side evaluations and callback invocations it performs.
* `abs(rk5 - rk4)` (lines 86 and 153) is an unqualified call with only `<cmath>`,
  `<functional>` and `<iostream>` included. The `double` overloads of `abs` are
  declared in namespace `std`; the global namespace has `int abs(int)`. The argument
  is therefore converted to `int` (truncation toward zero, `toInt`) and the result
  is an `int`: `rel` holds `|trunc(rk5 - rk4)|`. The conversion is defined by the
  language only when the truncated value fits an `int` (`|rk5 - rk4| < 2^31`);
  `toInt` is the mathematical truncation.
* The quotient `tol*h / rel` has no finite value when `rel = 0`; the rescale factor
  `s` is therefore an `Option R`, and `none` stands for the non-finite value that
  line 88 assigns. A step size multiplied by it is non-finite too; the loop
  iteration that would follow converts a non-finite difference `rk5 - rk4` to `int`
  on line 86, which the language leaves undefined, so the model ends the run there
  with status `undefined`.
* The `while` loop of `srkf45` may run forever; `srkf45` takes the number of loop
  iterations it is allowed to perform (fuel) and reports whether it returned.
-/

namespace RKF45

variable {R : Type} [LinearOrderedField R] {N : ℕ}

/-! ## Butcher tableau (`src/main.cpp` lines 17-28) -/

/-- The table `tableau[8][7]`. -/
def tableau : List (List R) := [
  [       0,         0,          0,          0,           0,      0,    0 ],
  [     1/4,       1/4,          0,          0,           0,      0,    0 ],
  [     3/8,      3/32,       9/32,          0,           0,      0,    0 ],
  [   12/13, 1932/2197, -7200/2197,  7296/2197,           0,      0,    0 ],
  [       1,   439/216,         -8,   3680/513,   -845/4104,      0,    0 ],
  [     1/2,     -8/27,          2, -3544/2565,   1859/4104, -11/40,    0 ],
  [       0,    16/135,          0, 6656/12825, 28561/56430,  -9/50, 2/55 ],
  [       0,    25/216,          0,  1408/2565,   2197/4104,   -1/5,    0 ]]

/-- The lookup `B(row,col)`, that is `tableau[row-1][col-1]` (1-indexed). Every use
in the program is in range; out of range the model reads 0. -/
def B (row col : ℕ) : R := ((tableau[row-1]?).getD [])[col-1]?.getD 0

/-- The conversion `double -> int` applied to the argument of `int abs(int)`:
truncation toward zero. -/
def toInt [FloorRing R] (d : R) : ℤ := if 0 ≤ d then ⌊d⌋ else ⌈d⌉

/-! ## Observable events -/

/-- What a run does that the outside can see: evaluating `f[j]` at the trial
vector `x`, and invoking the callback with `(r, dx, mrel)`. The callback reads
`N+1` reals at its first pointer and `N` reals at its second. -/
inductive Event (R : Type) (N : ℕ) where
  | eval (j : Fin N) (x : Fin (N+1) → R)
  | callback (r : Fin (N+1) → R) (dx : Fin N → R) (mrel : R)

/-- One pass `FOREACH Ki = f[j](x)`: `f[0], ..., f[N-1]` are each called once at `x`. -/
def evalAll (x : Fin (N+1) → R) : List (Event R N) :=
  (List.finRange N).map fun j => Event.eval j x

/-- The callbacks of a trace as triples `(r, dx, mrel)`, in order. -/
def callbacks : List (Event R N) → List ((Fin (N+1) → R) × (Fin N → R) × R)
  | [] => []
  | Event.callback r dx m :: es => (r, dx, m) :: callbacks es
  | Event.eval _ _ :: es => callbacks es

/-- The trial vectors of the right-hand-side evaluations of a trace, with the
index of the evaluated equation, in order. -/
def evals : List (Event R N) → List (Fin N × (Fin (N+1) → R))
  | [] => []
  | Event.callback _ _ _ :: es => evals es
  | Event.eval j x :: es => (j, x) :: evals es

/-! ## The stepper `srkf45` (lines 40-117) -/

namespace srkf45

variable (f : Fin N → (Fin (N+1) → R) → R)

/-! The six stages, lines 55-77. Here `a` is the value of the variable `a` when the
stages run, that is after `a += h` on line 52. -/

/-- Lines 55-56: `TK = a; FOREACH XK = YK`. -/
def X1 (a : R) (y : Fin N → R) : Fin (N+1) → R := Fin.cons a y

/-- Line 57: `FOREACH K1 = f[j](x)`. -/
def K1 (a : R) (y : Fin N → R) (j : Fin N) : R := f j (X1 a y)

/-- Lines 59-60. -/
def X2 (a h : R) (y : Fin N → R) : Fin (N+1) → R :=
  Fin.cons (a + B 2 1 * h) fun j => y j + h * (B 2 2 * K1 f a y j)

/-- Line 61. -/
def K2 (a h : R) (y : Fin N → R) (j : Fin N) : R := f j (X2 f a h y)

/-- Lines 63-64. -/
def X3 (a h : R) (y : Fin N → R) : Fin (N+1) → R :=
  Fin.cons (a + B 3 1 * h) fun j => y j + h * (B 3 2 * K1 f a y j + B 3 3 * K2 f a h y j)

/-- Line 65. -/
def K3 (a h : R) (y : Fin N → R) (j : Fin N) : R := f j (X3 f a h y)

/-- Lines 67-68. -/
def X4 (a h : R) (y : Fin N → R) : Fin (N+1) → R :=
  Fin.cons (a + B 4 1 * h) fun j =>
    y j + h * (B 4 2 * K1 f a y j + B 4 3 * K2 f a h y j + B 4 4 * K3 f a h y j)

/-- Line 69. -/
def K4 (a h : R) (y : Fin N → R) (j : Fin N) : R := f j (X4 f a h y)

/-- Lines 71-72. -/
def X5 (a h : R) (y : Fin N → R) : Fin (N+1) → R :=
  Fin.cons (a + B 5 1 * h) fun j =>
    y j + h * (B 5 2 * K1 f a y j + B 5 3 * K2 f a h y j + B 5 4 * K3 f a h y j
      + B 5 5 * K4 f a h y j)

/-- Line 73. -/
def K5 (a h : R) (y : Fin N → R) (j : Fin N) : R := f j (X5 f a h y)

/-- Lines 75-76. -/
def X6 (a h : R) (y : Fin N → R) : Fin (N+1) → R :=
  Fin.cons (a + B 6 1 * h) fun j =>
    y j + h * (B 6 2 * K1 f a y j + B 6 3 * K2 f a h y j + B 6 4 * K3 f a h y j
      + B 6 5 * K4 f a h y j + B 6 6 * K5 f a h y j)

/-- Line 77. -/
def K6 (a h : R) (y : Fin N → R) (j : Fin N) : R := f j (X6 f a h y)

/-- The right-hand-side evaluations of lines 55-77, in program order. -/
def stageEvents (a h : R) (y : Fin N → R) : List (Event R N) :=
  evalAll (X1 a y) ++ evalAll (X2 f a h y) ++ evalAll (X3 f a h y)
    ++ evalAll (X4 f a h y) ++ evalAll (X5 f a h y) ++ evalAll (X6 f a h y)

/-- Line 81: the fourth-order estimate `rk4`. -/
def rk4 (a h : R) (y : Fin N → R) (j : Fin N) : R :=
  y j + h * (B 8 2 * K1 f a y j + B 8 4 * K3 f a h y j + B 8 5 * K4 f a h y j
    + B 8 6 * K5 f a h y j)

/-- Line 83: `dx[j]`. -/
def dx (a h : R) (y : Fin N → R) (j : Fin N) : R :=
  B 7 2 * K1 f a y j + B 7 4 * K3 f a h y j + B 7 5 * K4 f a h y j
    + B 7 6 * K5 f a h y j + B 7 7 * K6 f a h y j

/-- Line 84: the fifth-order estimate `rk5`. -/
def rk5 (a h : R) (y : Fin N → R) (j : Fin N) : R := y j + h * dx f a h y j

variable [FloorRing R]

/-- Line 86: `auto rel = abs(rk5 - rk4)`. The call resolves to `int abs(int)`, so
`rel` is the `int` `|trunc(rk5 - rk4)|`; lines 87-89 use it as a `Real`. -/
def rel (a h : R) (y : Fin N → R) (j : Fin N) : R :=
  ((|toInt (rk5 f a h y j - rk4 f a h y j)| : ℤ) : R)

/-- The variables `mrel` and `s` of the error loop. `s = none` when the last
assignment to `s` divided by `rel = 0`. -/
structure Err (R : Type) where
  mrel : R
  s : Option R

/-- Line 88: `s = 0.84 * pow(tol*h / rel, 0.25)`. -/
def rescale (pow : R → R → R) (tol h rel : R) : Option R :=
  if rel = 0 then none else some (0.84 * pow (tol * h / rel) 0.25)

/-- Lines 86-90, one pass of the error loop for a given `rel`. -/
def errStep (pow : R → R → R) (tol h : R) (e : Err R) (rel : R) : Err R :=
  if rel ≥ e.mrel then ⟨rel, rescale pow tol h rel⟩ else e

/-- Lines 79-93: `mrel = 0.0, s = 0.0` and the loop over `j = 0 .. N-1`. -/
def errLoop (pow : R → R → R) (tol a h : R) (y : Fin N → R) : Err R :=
  (List.finRange N).foldl (fun e j => errStep pow tol h e (rel f a h y j)) ⟨0, some 0⟩

/-- The variables of `srkf45` that live across loop iterations. `h = none` when
the step size is not finite (it was multiplied by an `s` assigned by a division by
zero). -/
structure State (R : Type) (N : ℕ) where
  a : R
  h : Option R
  y : Fin N → R

/-- The buffer `r` at the callback of line 115: `r[0] = a` (line 53) and
`r[j+1] = rk5` (line 92). -/
def rbuf (a h : R) (y : Fin N → R) : Fin (N+1) → R := Fin.cons a (rk5 f a h y)

/-- One iteration of the loop body, lines 52-115, entered with time `a0`, step `h`
and state `y`. Returns the events of the iteration and the variables after it. -/
def body (pow : R → R → R) (tol a0 h : R) (y : Fin N → R) : List (Event R N) × State R N :=
  let a := a0 + h
  let e := errLoop f pow tol a h y
  if e.mrel > tol * 10 then
    (stageEvents f a h y, ⟨a - h, e.s.map (h * ·), y⟩)
  else
    (stageEvents f a h y ++ [Event.callback (rbuf f a h y) (dx f a h y) e.mrel],
      ⟨a, e.s.map (h * ·), fun j => rbuf f a h y j.succ⟩)

/-- Whether the iteration entered with `(a0, h, y)` ends in the `continue` of line 108. -/
def rejected (pow : R → R → R) (tol a0 h : R) (y : Fin N → R) : Prop :=
  (errLoop f pow tol (a0 + h) h y).mrel > tol * 10

instance (pow : R → R → R) (tol a0 h : R) (y : Fin N → R) :
    Decidable (rejected f pow tol a0 h y) := by
  unfold rejected; infer_instance

/-- How a run ended: `running` - the fuel was used up inside the loop;
`returned` - the guard `a <= b` failed and `srkf45` returned;
`undefined` - the loop body was entered with a step size that is not finite; its
line 86 converts a non-finite `rk5 - rk4` to `int`, which is undefined. -/
inductive Status where
  | running
  | returned
  | undefined
  deriving DecidableEq

/-- The outcome of a run: the events in order, the loop entries `(a, h, y)` in
order, the variables at the end and how it ended. -/
structure Run (R : Type) (N : ℕ) where
  trace : List (Event R N)
  attempts : List (R × R × (Fin N → R))
  final : State R N
  status : Status

/-- The `while (a <= b)` loop of lines 51-116, at most `fuel` iterations. -/
def loop (pow : R → R → R) (b tol : R) : ℕ → State R N → Run R N
  | 0, st => ⟨[], [], st, Status.running⟩
  | fuel + 1, st =>
    if st.a ≤ b then
      match st.h with
      | none => ⟨[], [], st, Status.undefined⟩
      | some h =>
        let out := body f pow tol st.a h st.y
        let rest := loop pow b tol fuel out.2
        ⟨out.1 ++ rest.trace, (st.a, h, st.y) :: rest.attempts, rest.final, rest.status⟩
    else ⟨[], [], st, Status.returned⟩

/-- The first callback, lines 47-49: `callback(r, r, 0.0)` with `r = (a, y)`. Both
pointers are `r`, so the `N` reals read at the second one are `r[0..N-1]`. -/
def initialCallback (a : R) (y : Fin N → R) : Event R N :=
  Event.callback (Fin.cons a y) (fun j => (Fin.cons a y : Fin (N+1) → R) j.castSucc) 0

end srkf45

/-- The function `srkf45(f, a, b, h, y, tol, callback)`, run for at most `fuel`
loop iterations. `final.y` is the caller's array `y` at the end. -/
def srkf45 [FloorRing R] (fuel : ℕ) (f : Fin N → (Fin (N+1) → R) → R) (pow : R → R → R)
    (a b h : R) (y : Fin N → R) (tol : R) : srkf45.Run R N :=
  let run := srkf45.loop f pow b tol fuel ⟨a, some h, y⟩
  ⟨srkf45.initialCallback a y :: run.trace, run.attempts, run.final, run.status⟩

/-! ## The estimator `InitialStepSize` (lines 120-167) -/

namespace InitialStepSize

variable (f : Fin N → (Fin (N+1) → R) → R)

/-- Lines 125-126. -/
def X1 (a : R) (y : Fin N → R) : Fin (N+1) → R := Fin.cons a y

/-- Line 127: `FOREACH K1 = h*f[j](x)`. -/
def K1 (a h : R) (y : Fin N → R) (j : Fin N) : R := h * f j (X1 a y)

/-- Lines 129-130. -/
def X2 (a h : R) (y : Fin N → R) : Fin (N+1) → R :=
  Fin.cons (a + B 2 1 * h) fun j => y j + B 2 2 * K1 f a h y j

/-- Line 131. -/
def K2 (a h : R) (y : Fin N → R) (j : Fin N) : R := h * f j (X2 f a h y)

/-- Lines 133-134. -/
def X3 (a h : R) (y : Fin N → R) : Fin (N+1) → R :=
  Fin.cons (a + B 3 1 * h) fun j => y j + B 3 2 * K1 f a h y j + B 3 3 * K2 f a h y j

/-- Line 135. -/
def K3 (a h : R) (y : Fin N → R) (j : Fin N) : R := h * f j (X3 f a h y)

/-- Lines 137-138. -/
def X4 (a h : R) (y : Fin N → R) : Fin (N+1) → R :=
  Fin.cons (a + B 4 1 * h) fun j =>
    y j + B 4 2 * K1 f a h y j + B 4 3 * K2 f a h y j + B 4 4 * K3 f a h y j

/-- Line 139. -/
def K4 (a h : R) (y : Fin N → R) (j : Fin N) : R := h * f j (X4 f a h y)

/-- Lines 141-142. -/
def X5 (a h : R) (y : Fin N → R) : Fin (N+1) → R :=
  Fin.cons (a + B 5 1 * h) fun j =>
    y j + B 5 2 * K1 f a h y j + B 5 3 * K2 f a h y j + B 5 4 * K3 f a h y j
      + B 5 5 * K4 f a h y j

/-- Line 143. -/
def K5 (a h : R) (y : Fin N → R) (j : Fin N) : R := h * f j (X5 f a h y)

/-- Lines 145-146. -/
def X6 (a h : R) (y : Fin N → R) : Fin (N+1) → R :=
  Fin.cons (a + B 6 1 * h) fun j =>
    y j + B 6 2 * K1 f a h y j + B 6 3 * K2 f a h y j + B 6 4 * K3 f a h y j
      + B 6 5 * K4 f a h y j + B 6 6 * K5 f a h y j

/-- Line 147. -/
def K6 (a h : R) (y : Fin N → R) (j : Fin N) : R := h * f j (X6 f a h y)

/-- Line 151. -/
def rk4 (a h : R) (y : Fin N → R) (j : Fin N) : R :=
  y j + B 8 2 * K1 f a h y j + B 8 4 * K3 f a h y j + B 8 5 * K4 f a h y j
    + B 8 6 * K5 f a h y j

/-- Line 152. -/
def rk5 (a h : R) (y : Fin N → R) (j : Fin N) : R :=
  y j + B 7 2 * K1 f a h y j + B 7 4 * K3 f a h y j + B 7 5 * K4 f a h y j
    + B 7 6 * K5 f a h y j + B 7 7 * K6 f a h y j

/-- The lambda `rel` of lines 124-156: `rel = 0.0`, then
`rel = fmax(rel, abs(rk5 - rk4))` for `j = 0 .. N-1`. As on line 86, `abs` is
`int abs(int)`: `fmax` receives the `int` `|trunc(rk5 - rk4)|`. -/
def rel [FloorRing R] (a : R) (y : Fin N → R) (h : R) : R :=
  (List.finRange N).foldl
    (fun m j => max m ((|toInt (rk5 f a h y j - rk4 f a h y j)| : ℤ) : R)) 0

/-- The variables `l`, `c`, `r` of the bisection. -/
structure Bracket (R : Type) where
  l : R
  c : R
  r : R

/-- Lines 161-163: one bisection iteration with error function `rel`. -/
def bisectStep (rel : R → R) (tol : R) (s : Bracket R) : Bracket R :=
  let c := (s.r + s.l) * 0.5
  if rel c < tol then ⟨c, c, s.r⟩ else ⟨s.l, c, c⟩

/-- Lines 158-164: `l = tol, r = b - a` and `n` bisection iterations. The variable
`c` is uninitialised before the first iteration; the model starts it at 0 and
never reads that value when `n ≥ 1`. -/
def bisect (rel : R → R) (a b tol : R) (n : ℕ) : Bracket R :=
  (bisectStep rel tol)^[n] ⟨tol, 0, b - a⟩

end InitialStepSize

/-- The function `InitialStepSize(f, a, b, y, tol)`: the value of `c` after 32
bisection iterations. -/
def InitialStepSize [FloorRing R] (f : Fin N → (Fin (N+1) → R) → R) (a b : R)
    (y : Fin N → R) (tol : R) : R :=
  (InitialStepSize.bisect (InitialStepSize.rel f a y) a b tol 32).c

/-! ## Concrete inputs used to exercise the statements -/

/-- The scalar decay equation `y' = -y` (one equation, `f[0](x) = -x[1]`). -/
def fDecay : Fin 1 → (Fin 2 → R) → R := fun j x => - x j.succ

/-- The non-autonomous equation `y' = t*y` (one equation, `f[0](x) = x[0]*x[1]`). -/
def fTimesState : Fin 1 → (Fin 2 → R) → R := fun j x => x 0 * x j.succ

/-- The scalar linear equation `y' = lambda*y` (one equation, `f[0](x) = lambda*x[1]`). -/
def fLinear (lam : R) : Fin 1 → (Fin 2 → R) → R := fun j x => lam * x j.succ

/-- A constant right-hand side, `f[j](x) = c[j]`. -/
def fConst (c : Fin N → R) : Fin N → (Fin (N+1) → R) → R := fun j _ => c j

section Lemmas
variable (f : Fin N → (Fin (N+1) → R) → R) (pow : R → R → R)

theorem callbacks_append {α : Type} (u v : List (Event α N)) :
    callbacks (u ++ v) = callbacks u ++ callbacks v := by
  induction u with
  | nil => rfl
  | cons e u ih => cases e <;> simp [callbacks, ih]

theorem evals_append {α : Type} (u v : List (Event α N)) :
    evals (u ++ v) = evals u ++ evals v := by
  induction u with
  | nil => rfl
  | cons e u ih => cases e <;> simp [evals, ih]

theorem callbacks_map_eval {α : Type} (x : Fin (N+1) → α) (l : List (Fin N)) :
    callbacks (l.map fun j => Event.eval j x) = [] := by
  induction l with
  | nil => rfl
  | cons j l ih => simpa [callbacks] using ih

theorem evals_map_eval {α : Type} (x : Fin (N+1) → α) (l : List (Fin N)) :
    evals (l.map fun j => Event.eval j x) = l.map fun j => (j, x) := by
  induction l with
  | nil => rfl
  | cons j l ih => simpa [evals] using ih

theorem callbacks_evalAll {α : Type} (x : Fin (N+1) → α) : callbacks (evalAll x : List (Event α N)) = [] :=
  callbacks_map_eval x _

theorem callbacks_stageEvents (a h : R) (y : Fin N → R) :
    callbacks (srkf45.stageEvents f a h y) = [] := by
  simp [srkf45.stageEvents, callbacks_append, callbacks_evalAll]

theorem errStep_mrel (tol h : R) (e : srkf45.Err R) (r : R) :
    (srkf45.errStep pow tol h e r).mrel = max e.mrel r := by
  unfold srkf45.errStep
  split_ifs with hr
  · exact (max_eq_right hr).symm
  · exact (max_eq_left (le_of_lt (not_le.mp hr))).symm

theorem errFold_mrel (tol h : R) (g : Fin N → R) (l : List (Fin N)) (e : srkf45.Err R) :
    (l.foldl (fun e j => srkf45.errStep pow tol h e (g j)) e).mrel
      = l.foldl (fun m j => max m (g j)) e.mrel := by
  induction l generalizing e with
  | nil => rfl
  | cons j l ih => simp only [List.foldl_cons]; rw [ih, errStep_mrel]

theorem foldl_max_ge (g : Fin N → R) (l : List (Fin N)) (m : R) :
    m ≤ l.foldl (fun m j => max m (g j)) m := by
  induction l generalizing m with
  | nil => exact le_rfl
  | cons j l ih => exact le_trans (le_max_left _ _) (ih _)

theorem foldl_max_mem_le (g : Fin N → R) (l : List (Fin N)) (m : R) (j : Fin N) (hj : j ∈ l) :
    g j ≤ l.foldl (fun m j => max m (g j)) m := by
  induction l generalizing m with
  | nil => cases hj
  | cons i l ih =>
    rcases List.mem_cons.mp hj with rfl | hj
    · exact le_trans (le_max_right _ _) (foldl_max_ge g l _)
    · exact ih _ hj

theorem foldl_max_attained (g : Fin N → R) (l : List (Fin N)) (m : R) :
    l.foldl (fun m j => max m (g j)) m = m ∨ ∃ j ∈ l, l.foldl (fun m j => max m (g j)) m = g j := by
  induction l generalizing m with
  | nil => exact Or.inl rfl
  | cons i l ih =>
    simp only [List.foldl_cons]
    rcases ih (max m (g i)) with h | ⟨j, hj, h⟩
    · rcases max_choice m (g i) with hm | hm
      · exact Or.inl (by rw [h, hm])
      · exact Or.inr ⟨i, List.mem_cons_self _ _, by rw [h, hm]⟩
    · exact Or.inr ⟨j, List.mem_cons_of_mem _ hj, h⟩

theorem errFold_s (tol h : R) (g : Fin N → R) (l : List (Fin N)) (e : srkf45.Err R)
    (he : e.s = srkf45.rescale pow tol h e.mrel) :
    (l.foldl (fun e j => srkf45.errStep pow tol h e (g j)) e).s
      = srkf45.rescale pow tol h (l.foldl (fun e j => srkf45.errStep pow tol h e (g j)) e).mrel := by
  induction l generalizing e with
  | nil => exact he
  | cons j l ih =>
    simp only [List.foldl_cons]
    apply ih
    unfold srkf45.errStep
    split_ifs
    · rfl
    · exact he

theorem evalAll_head {α : Type} (hN : N ≠ 0) (x : Fin (N+1) → α) :
    ∃ j tl, (evalAll x : List (Event α N)) = Event.eval j x :: tl := by
  obtain ⟨n, rfl⟩ : ∃ n, N = n + 1 := ⟨N - 1, by omega⟩
  refine ⟨0, ((List.finRange n).map Fin.succ).map (fun j => Event.eval j x), ?_⟩
  simp [evalAll, List.finRange_succ_eq_map]

theorem est_K1 (a h : R) (y : Fin N → R) (j : Fin N) :
    InitialStepSize.K1 f a h y j = h * srkf45.K1 f a y j := rfl

theorem est_X2 (a h : R) (y : Fin N → R) :
    InitialStepSize.X2 f a h y = srkf45.X2 f a h y := by
  unfold InitialStepSize.X2 srkf45.X2
  funext i
  refine Fin.cases ?_ (fun j => ?_) i
  · simp only [Fin.cons_zero]
  · simp only [Fin.cons_succ, est_K1]; ring

theorem est_K2 (a h : R) (y : Fin N → R) (j : Fin N) :
    InitialStepSize.K2 f a h y j = h * srkf45.K2 f a h y j := by
  unfold InitialStepSize.K2 srkf45.K2; rw [est_X2]

theorem est_X3 (a h : R) (y : Fin N → R) :
    InitialStepSize.X3 f a h y = srkf45.X3 f a h y := by
  unfold InitialStepSize.X3 srkf45.X3
  funext i
  refine Fin.cases ?_ (fun j => ?_) i
  · simp only [Fin.cons_zero]
  · simp only [Fin.cons_succ, est_K1, est_K2]; ring

theorem est_K3 (a h : R) (y : Fin N → R) (j : Fin N) :
    InitialStepSize.K3 f a h y j = h * srkf45.K3 f a h y j := by
  unfold InitialStepSize.K3 srkf45.K3; rw [est_X3]

theorem est_X4 (a h : R) (y : Fin N → R) :
    InitialStepSize.X4 f a h y = srkf45.X4 f a h y := by
  unfold InitialStepSize.X4 srkf45.X4
  funext i
  refine Fin.cases ?_ (fun j => ?_) i
  · simp only [Fin.cons_zero]
  · simp only [Fin.cons_succ, est_K1, est_K2, est_K3]; ring

theorem est_K4 (a h : R) (y : Fin N → R) (j : Fin N) :
    InitialStepSize.K4 f a h y j = h * srkf45.K4 f a h y j := by
  unfold InitialStepSize.K4 srkf45.K4; rw [est_X4]

theorem est_X5 (a h : R) (y : Fin N → R) :
    InitialStepSize.X5 f a h y = srkf45.X5 f a h y := by
  unfold InitialStepSize.X5 srkf45.X5
  funext i
  refine Fin.cases ?_ (fun j => ?_) i
  · simp only [Fin.cons_zero]
  · simp only [Fin.cons_succ, est_K1, est_K2, est_K3, est_K4]; ring

theorem est_K5 (a h : R) (y : Fin N → R) (j : Fin N) :
    InitialStepSize.K5 f a h y j = h * srkf45.K5 f a h y j := by
  unfold InitialStepSize.K5 srkf45.K5; rw [est_X5]

theorem est_X6 (a h : R) (y : Fin N → R) :
    InitialStepSize.X6 f a h y = srkf45.X6 f a h y := by
  unfold InitialStepSize.X6 srkf45.X6
  funext i
  refine Fin.cases ?_ (fun j => ?_) i
  · simp only [Fin.cons_zero]
  · simp only [Fin.cons_succ, est_K1, est_K2, est_K3, est_K4, est_K5]; ring

theorem est_K6 (a h : R) (y : Fin N → R) (j : Fin N) :
    InitialStepSize.K6 f a h y j = h * srkf45.K6 f a h y j := by
  unfold InitialStepSize.K6 srkf45.K6; rw [est_X6]

theorem est_rk4 (a h : R) (y : Fin N → R) (j : Fin N) :
    InitialStepSize.rk4 f a h y j = srkf45.rk4 f a h y j := by
  unfold InitialStepSize.rk4 srkf45.rk4
  rw [est_K1, est_K3, est_K4, est_K5]; ring

theorem est_rk5 (a h : R) (y : Fin N → R) (j : Fin N) :
    InitialStepSize.rk5 f a h y j = srkf45.rk5 f a h y j := by
  unfold InitialStepSize.rk5 srkf45.rk5 srkf45.dx
  rw [est_K1, est_K3, est_K4, est_K5, est_K6]; ring

theorem bisect_succ (rel : R → R) (a b tol : R) (n : ℕ) :
    InitialStepSize.bisect rel a b tol (n + 1)
      = InitialStepSize.bisectStep rel tol (InitialStepSize.bisect rel a b tol n) :=
  Function.iterate_succ_apply' _ _ _

theorem bisectStep_pos (rel : R → R) (tol : R) (s : InitialStepSize.Bracket R)
    (hc : rel ((s.r + s.l) * 0.5) < tol) :
    InitialStepSize.bisectStep rel tol s = ⟨(s.r + s.l) * 0.5, (s.r + s.l) * 0.5, s.r⟩ := by
  simp only [InitialStepSize.bisectStep, if_pos hc]

theorem bisectStep_neg (rel : R → R) (tol : R) (s : InitialStepSize.Bracket R)
    (hc : ¬ rel ((s.r + s.l) * 0.5) < tol) :
    InitialStepSize.bisectStep rel tol s = ⟨s.l, (s.r + s.l) * 0.5, (s.r + s.l) * 0.5⟩ := by
  simp only [InitialStepSize.bisectStep, if_neg hc]

/-- Each iteration halves the bracket. -/
theorem bisect_width (rel : R → R) (a b tol : R) (n : ℕ) :
    (InitialStepSize.bisect rel a b tol n).r - (InitialStepSize.bisect rel a b tol n).l
      = (b - a - tol) / 2 ^ n := by
  induction n with
  | zero => simp [InitialStepSize.bisect]
  | succ n ih =>
    rw [bisect_succ, pow_succ, ← div_div, ← ih]
    by_cases hc : rel (((InitialStepSize.bisect rel a b tol n).r
        + (InitialStepSize.bisect rel a b tol n).l) * 0.5) < tol
    · rw [bisectStep_pos rel tol _ hc]; norm_num; ring
    · rw [bisectStep_neg rel tol _ hc]; norm_num; ring

/-- The lower end is the initial `tol` or a point that passed the test. -/
theorem bisect_lower (rel : R → R) (a b tol : R) (n : ℕ) :
    (InitialStepSize.bisect rel a b tol n).l = tol
      ∨ rel (InitialStepSize.bisect rel a b tol n).l < tol := by
  induction n with
  | zero => exact Or.inl rfl
  | succ n ih =>
    rw [bisect_succ]
    by_cases hc : rel (((InitialStepSize.bisect rel a b tol n).r
        + (InitialStepSize.bisect rel a b tol n).l) * 0.5) < tol
    · rw [bisectStep_pos rel tol _ hc]; exact Or.inr hc
    · rw [bisectStep_neg rel tol _ hc]; exact ih

/-- After an iteration `c` is the end of the bracket that was moved. -/
theorem bisect_mid (rel : R → R) (a b tol : R) (n : ℕ) :
    (rel (InitialStepSize.bisect rel a b tol (n + 1)).c < tol
        ∧ (InitialStepSize.bisect rel a b tol (n + 1)).c
            = (InitialStepSize.bisect rel a b tol (n + 1)).l)
      ∨ (tol ≤ rel (InitialStepSize.bisect rel a b tol (n + 1)).c
        ∧ (InitialStepSize.bisect rel a b tol (n + 1)).c
            = (InitialStepSize.bisect rel a b tol (n + 1)).r) := by
  rw [bisect_succ]
  by_cases hc : rel (((InitialStepSize.bisect rel a b tol n).r
      + (InitialStepSize.bisect rel a b tol n).l) * 0.5) < tol
  · rw [bisectStep_pos rel tol _ hc]; exact Or.inl ⟨hc, rfl⟩
  · rw [bisectStep_neg rel tol _ hc]; exact Or.inr ⟨not_lt.mp hc, rfl⟩

/-- With `tol <= b - a` the bracket stays ordered inside `[tol, b - a]`. -/
theorem bisect_ordered (rel : R → R) (a b tol : R) (hab : tol ≤ b - a) (n : ℕ) :
    tol ≤ (InitialStepSize.bisect rel a b tol n).l
      ∧ (InitialStepSize.bisect rel a b tol n).l ≤ (InitialStepSize.bisect rel a b tol n).r
      ∧ (InitialStepSize.bisect rel a b tol n).r ≤ b - a := by
  induction n with
  | zero => exact ⟨le_rfl, hab, le_rfl⟩
  | succ n ih =>
    rw [bisect_succ]
    obtain ⟨h1, h2, h3⟩ := ih
    by_cases hc : rel (((InitialStepSize.bisect rel a b tol n).r
        + (InitialStepSize.bisect rel a b tol n).l) * 0.5) < tol
    · rw [bisectStep_pos rel tol _ hc]
      refine ⟨?_, ?_, h3⟩ <;> norm_num <;> linarith
    · rw [bisectStep_neg rel tol _ hc]
      refine ⟨h1, ?_, ?_⟩ <;> norm_num <;> linarith

/-- When the error function crosses `tol` at a threshold, the bracket keeps the
threshold inside. -/
theorem bisect_brackets_threshold (rel : R → R) (a b tol : R) (hab : tol ≤ b - a)
    (hstar : R) (h1 : tol ≤ hstar) (h2 : hstar ≤ b - a)
    (hlt : ∀ h, tol ≤ h → h < hstar → rel h < tol)
    (hge : ∀ h, hstar < h → h ≤ b - a → tol ≤ rel h) (n : ℕ) :
    (InitialStepSize.bisect rel a b tol n).l ≤ hstar
      ∧ hstar ≤ (InitialStepSize.bisect rel a b tol n).r := by
  induction n with
  | zero => exact ⟨h1, h2⟩
  | succ n ih =>
    obtain ⟨o1, o2, o3⟩ := bisect_ordered rel a b tol hab n
    rw [bisect_succ]
    by_cases hc : rel (((InitialStepSize.bisect rel a b tol n).r
        + (InitialStepSize.bisect rel a b tol n).l) * 0.5) < tol
    · rw [bisectStep_pos rel tol _ hc]
      refine ⟨?_, ih.2⟩
      by_contra hcon
      have hgt := not_le.mp hcon
      have : tol ≤ rel (((InitialStepSize.bisect rel a b tol n).r
          + (InitialStepSize.bisect rel a b tol n).l) * 0.5) :=
        hge _ hgt (by norm_num; linarith)
      exact absurd hc (not_lt.mpr this)
    · rw [bisectStep_neg rel tol _ hc]
      refine ⟨ih.1, ?_⟩
      by_contra hcon
      have hgt := not_le.mp hcon
      exact hc (hlt _ (by norm_num; linarith) hgt)

theorem bisect_all_fail (rel : R → R) (a b tol : R) (hab : tol ≤ b - a)
    (hall : ∀ h, tol ≤ h → h ≤ b - a → tol ≤ rel h) (n : ℕ) :
    (InitialStepSize.bisect rel a b tol n).l = tol
      ∧ (InitialStepSize.bisect rel a b tol n).r = tol + (b - a - tol) / 2 ^ n
      ∧ (InitialStepSize.bisect rel a b tol (n + 1)).c
          = tol + (b - a - tol) / 2 ^ (n + 1) := by
  have key : ∀ n, (InitialStepSize.bisect rel a b tol n).l = tol
      ∧ (InitialStepSize.bisect rel a b tol n).r = tol + (b - a - tol) / 2 ^ n := by
    intro n
    have hw := bisect_width rel a b tol n
    suffices hl : (InitialStepSize.bisect rel a b tol n).l = tol by
      refine ⟨hl, ?_⟩
      rw [hl] at hw; linarith
    induction n with
    | zero => rfl
    | succ n ih =>
      obtain ⟨o1, o2, o3⟩ := bisect_ordered rel a b tol hab n
      have hc : ¬ rel (((InitialStepSize.bisect rel a b tol n).r
          + (InitialStepSize.bisect rel a b tol n).l) * 0.5) < tol :=
        not_lt.mpr (hall _ (by norm_num; linarith) (by norm_num; linarith))
      rw [bisect_succ, bisectStep_neg rel tol _ hc]
      exact ih (bisect_width rel a b tol n)
  refine ⟨(key n).1, (key n).2, ?_⟩
  obtain ⟨o1, o2, o3⟩ := bisect_ordered rel a b tol hab n
  have hc : ¬ rel (((InitialStepSize.bisect rel a b tol n).r
      + (InitialStepSize.bisect rel a b tol n).l) * 0.5) < tol :=
    not_lt.mpr (hall _ (by norm_num; linarith) (by norm_num; linarith))
  rw [bisect_succ, bisectStep_neg rel tol _ hc]
  simp only [(key n).1, (key n).2, pow_succ]
  norm_num
  ring

/-- The fifth-order estimate of one attempt for `y' = lambda*y`. -/
theorem fLinear_rk5 (lam a h : R) (y : Fin 1 → R) (j : Fin 1) :
    srkf45.rk5 (fLinear lam) a h y j
      = y j * (1 + h * lam + (h * lam) ^ 2 / 2 + (h * lam) ^ 3 / 6 + (h * lam) ^ 4 / 24
          + (h * lam) ^ 5 / 120 + (h * lam) ^ 6 / 2080) := by
  simp only [srkf45.rk5, srkf45.dx, srkf45.K1, srkf45.K2, srkf45.K3, srkf45.K4, srkf45.K5,
    srkf45.K6, srkf45.X1, srkf45.X2, srkf45.X3, srkf45.X4, srkf45.X5, srkf45.X6, fLinear,
    Fin.cons_succ]
  simp only [B, tableau]
  norm_num
  ring

theorem fLinear_rk4 (lam a h : R) (y : Fin 1 → R) (j : Fin 1) :
    srkf45.rk4 (fLinear lam) a h y j
      = y j * (1 + h * lam + (h * lam) ^ 2 / 2 + (h * lam) ^ 3 / 6 + (h * lam) ^ 4 / 24
          + (h * lam) ^ 5 / 104) := by
  simp only [srkf45.rk4, srkf45.K1, srkf45.K2, srkf45.K3, srkf45.K4, srkf45.K5,
    srkf45.X1, srkf45.X2, srkf45.X3, srkf45.X4, srkf45.X5, fLinear,
    Fin.cons_succ]
  simp only [B, tableau]
  norm_num
  ring

theorem fDecay_eq_fLinear : (fDecay : Fin 1 → (Fin 2 → R) → R) = fLinear (-1) := by
  funext j x
  simp [fDecay, fLinear]

theorem rpow_sixteen : Real.rpow 16 0.25 = 2 := by
  rw [Real.rpow_eq_pow]
  have h16 : (16 : ℝ) = (2 : ℝ) ^ (4 : ℕ) := by norm_num
  have h25 : (0.25 : ℝ) = ((4 : ℕ) : ℝ)⁻¹ := by norm_num
  rw [h16, h25]
  exact Real.pow_rpow_inv_natCast (by norm_num) (by norm_num)

/-- Below `(25/21)^4` the rescale factor `0.84 * x^(1/4)` is less than 1. -/
theorem rescale_factor_lt_one (x : ℝ) (hx0 : 0 < x) (hx : x < (25/21) ^ 4) :
    0.84 * Real.rpow x 0.25 < 1 := by
  rw [Real.rpow_eq_pow]
  have h25 : (0.25 : ℝ) = ((4 : ℕ) : ℝ)⁻¹ := by norm_num
  have hlt : x ^ (0.25 : ℝ) < ((25/21 : ℝ) ^ (4 : ℕ)) ^ (0.25 : ℝ) :=
    Real.rpow_lt_rpow hx0.le hx (by norm_num)
  have heq : ((25/21 : ℝ) ^ (4 : ℕ)) ^ (0.25 : ℝ) = 25/21 := by
    rw [h25]
    exact Real.pow_rpow_inv_natCast (by norm_num) (by norm_num)
  rw [heq] at hlt
  have : (0.84 : ℝ) * x ^ (0.25 : ℝ) < 0.84 * (25/21) :=
    mul_lt_mul_of_pos_left hlt (by norm_num)
  calc (0.84 : ℝ) * x ^ (0.25 : ℝ) < 0.84 * (25/21) := this
    _ = 1 := by norm_num

/-- The discrepancy of the two estimates for `y' = lambda*y`. -/
theorem fLinear_diff (lam a h : R) (y : Fin 1 → R) (j : Fin 1) :
    srkf45.rk5 (fLinear lam) a h y j - srkf45.rk4 (fLinear lam) a h y j
      = y j * (h * lam) ^ 5 * (h * lam / 2080 - 1 / 780) := by
  rw [fLinear_rk5, fLinear_rk4]; ring

/-- For `y' = -y` and `h >= 0` the discrepancy has size `|y| h^5 (h/2080 + 1/780)`. -/
theorem fLinear_neg_one_abs (h : R) (hh : 0 ≤ h) (y0 : R) :
    |y0 * (h * (-1)) ^ 5 * (h * (-1) / 2080 - 1 / 780)| = |y0| * (h ^ 5 * (h / 2080 + 1 / 780)) := by
  have e : y0 * (h * (-1)) ^ 5 * (h * (-1) / 2080 - 1 / 780)
      = y0 * (h ^ 5 * (h / 2080 + 1 / 780)) := by ring
  rw [e, abs_mul, abs_of_nonneg (a := h ^ 5 * (h / 2080 + 1 / 780)) (by positivity)]

/-- From `y = 1` with `h = 1` the two estimates differ by `11/6240`. -/
theorem fDecay_diff_unit (a : R) :
    |srkf45.rk5 (fDecay : Fin 1 → (Fin 2 → R) → R) a 1 ![1] 0
        - srkf45.rk4 (fDecay : Fin 1 → (Fin 2 → R) → R) a 1 ![1] 0| = 11/6240 := by
  rw [fDecay_eq_fLinear, fLinear_diff]
  have e : (![1] : Fin 1 → R) 0 * (1 * (-1)) ^ 5 * (1 * (-1) / 2080 - 1 / 780) = 11/6240 := by
    simp only [Matrix.cons_val_zero]; norm_num
  rw [e]; exact abs_of_nonneg (by norm_num)

/-! ## The slowly decaying equation `y' = -y/320` -/

/-- The fourth power of the rescaled step `h * (0.84 * x^(1/4))`. -/
theorem rescaled_step_pow_four (h x : ℝ) (hx : 0 ≤ x) :
    (h * (0.84 * Real.rpow x 0.25)) ^ 4 = h ^ 4 * (0.84 ^ 4 * x) := by
  have h25 : (0.25 : ℝ) = ((4 : ℕ) : ℝ)⁻¹ := by norm_num
  have e : (Real.rpow x 0.25) ^ 4 = x := by
    rw [Real.rpow_eq_pow, h25]
    exact Real.rpow_inv_natCast_pow hx (by norm_num)
  rw [mul_pow, mul_pow, e]

/-- For `y' = -y/320` from `y = 12000` and a step `h >= 0` the two estimates differ
by `12000 (h/320)^5 (h/665600 + 1/780)`. -/
theorem fSlow_abs (h : ℝ) (hh : 0 ≤ h) :
    |(![12000] : Fin 1 → ℝ) 0 * (h * (-1/320)) ^ 5 * (h * (-1/320) / 2080 - 1 / 780)|
      = h ^ 5 * (12000 / 320 ^ 5 * (h / 665600 + 1 / 780)) := by
  have e : (![12000] : Fin 1 → ℝ) 0 * (h * (-1/320)) ^ 5 * (h * (-1/320) / 2080 - 1 / 780)
      = h ^ 5 * (12000 / 320 ^ 5 * (h / 665600 + 1 / 780)) := by
    simp only [Matrix.cons_val_zero]; ring
  rw [e]; exact abs_of_nonneg (by positivity)

end Lemmas

/-! ## Lemmas on the code with the `int` conversion -/

section LemmasInt
variable [FloorRing R] (f : Fin N → (Fin (N+1) → R) → R) (pow : R → R → R)

/-! ## Lemmas on the `int` conversion -/

/-- The absolute value of the truncation toward zero is the floor of the absolute value. -/
theorem abs_toInt (d : R) : |toInt d| = ⌊|d|⌋ := by
  unfold toInt
  split_ifs with h
  · rw [abs_of_nonneg h, abs_of_nonneg (Int.floor_nonneg.mpr h)]
  · have hd : d < 0 := not_le.mp h
    have hc : ⌈d⌉ ≤ 0 := Int.ceil_le.mpr (by simpa using hd.le)
    rw [abs_of_neg hd, Int.floor_neg, abs_of_nonpos hc]

theorem cast_abs_toInt_eq (d : R) (n : ℤ) (h1 : (n : R) ≤ |d|) (h2 : |d| < n + 1) :
    ((|toInt d| : ℤ) : R) = n := by
  rw [abs_toInt, Int.floor_eq_iff.mpr ⟨h1, h2⟩]

theorem cast_abs_toInt_nonneg (d : R) : 0 ≤ ((|toInt d| : ℤ) : R) := by
  exact_mod_cast abs_nonneg (toInt d)

theorem cast_abs_toInt_le (d : R) : ((|toInt d| : ℤ) : R) ≤ |d| := by
  rw [abs_toInt]; exact Int.floor_le _

theorem cast_abs_toInt_lt_one (d : R) (h : |d| < 1) : ((|toInt d| : ℤ) : R) = 0 := by
  have := cast_abs_toInt_eq d 0 (by simp) (by simpa using h)
  simpa using this

theorem one_le_cast_abs_toInt (d : R) (h : 1 ≤ |d|) : (1 : R) ≤ ((|toInt d| : ℤ) : R) := by
  rw [abs_toInt]
  have : (1 : ℤ) ≤ ⌊|d|⌋ := Int.le_floor.mpr (by simpa using h)
  exact_mod_cast this

theorem lt_cast_abs_toInt_add_one (d : R) : |d| < ((|toInt d| : ℤ) : R) + 1 := by
  rw [abs_toInt]; exact Int.lt_floor_add_one _

/-! ## Lemmas on the error loop -/

theorem rel_nonneg (a h : R) (y : Fin N → R) (j : Fin N) : 0 ≤ srkf45.rel f a h y j :=
  cast_abs_toInt_nonneg _

/-- The code's `rel` is the integer part of the discrepancy of the two estimates. -/
theorem rel_eq_floor (a h : R) (y : Fin N → R) (j : Fin N) :
    srkf45.rel f a h y j = ((⌊|srkf45.rk5 f a h y j - srkf45.rk4 f a h y j|⌋ : ℤ) : R) := by
  unfold srkf45.rel
  rw [abs_toInt]

/-- After the error loop `mrel` is the running maximum of the `rel` values. -/
theorem errLoop_mrel (tol a h : R) (y : Fin N → R) :
    (srkf45.errLoop f pow tol a h y).mrel
      = (List.finRange N).foldl (fun m j => max m (srkf45.rel f a h y j)) 0 :=
  errFold_mrel pow tol h _ _ _

theorem errLoop_rel_le (tol a h : R) (y : Fin N → R) (j : Fin N) :
    srkf45.rel f a h y j ≤ (srkf45.errLoop f pow tol a h y).mrel := by
  rw [errLoop_mrel]; exact foldl_max_mem_le _ _ _ j (List.mem_finRange j)

theorem errLoop_mrel_attained (hN : 0 < N) (tol a h : R) (y : Fin N → R) :
    ∃ j, (srkf45.errLoop f pow tol a h y).mrel = srkf45.rel f a h y j := by
  rw [errLoop_mrel]
  rcases foldl_max_attained (srkf45.rel f a h y) (List.finRange N) 0 with h0 | ⟨j, _, hj⟩
  · refine ⟨⟨0, hN⟩, le_antisymm ?_ ?_⟩
    · rw [h0]; exact rel_nonneg f a h y _
    · exact foldl_max_mem_le _ _ _ _ (List.mem_finRange _)
  · exact ⟨j, hj⟩

/-- With at least one equation, the rescale factor left by the error loop is the
one computed from the final `mrel`. -/
theorem errLoop_s (hN : 0 < N) (tol a h : R) (y : Fin N → R) :
    (srkf45.errLoop f pow tol a h y).s
      = srkf45.rescale pow tol h (srkf45.errLoop f pow tol a h y).mrel := by
  unfold srkf45.errLoop
  obtain ⟨n, rfl⟩ : ∃ n, N = n + 1 := ⟨N - 1, by omega⟩
  rw [List.finRange_succ_eq_map]
  simp only [List.foldl_cons]
  apply errFold_s
  have h0 : srkf45.rel f a h y 0 ≥ (0 : R) := rel_nonneg f a h y 0
  simp [srkf45.errStep, h0]

theorem errLoop_zero_eqs (hN : N = 0) (tol a h : R) (y : Fin N → R) :
    srkf45.errLoop f pow tol a h y = ⟨0, some 0⟩ := by
  subst hN; rfl

theorem errLoop_mrel_ne_zero_pos (tol a h : R) (y : Fin N → R)
    (hm : (srkf45.errLoop f pow tol a h y).mrel ≠ 0) : 0 < N := by
  rcases Nat.eq_zero_or_pos N with h0 | h0
  · rw [errLoop_zero_eqs f pow h0] at hm; exact absurd rfl hm
  · exact h0

theorem body_of_rejected (tol a0 h : R) (y : Fin N → R)
    (hr : srkf45.rejected f pow tol a0 h y) :
    srkf45.body f pow tol a0 h y
      = (srkf45.stageEvents f (a0 + h) h y,
          ⟨a0 + h - h, (srkf45.errLoop f pow tol (a0 + h) h y).s.map (h * ·), y⟩) := by
  unfold srkf45.rejected at hr
  simp only [srkf45.body, if_pos hr]

theorem body_of_accepted (tol a0 h : R) (y : Fin N → R)
    (hr : ¬ srkf45.rejected f pow tol a0 h y) :
    srkf45.body f pow tol a0 h y
      = (srkf45.stageEvents f (a0 + h) h y
            ++ [Event.callback (srkf45.rbuf f (a0 + h) h y) (srkf45.dx f (a0 + h) h y)
                  (srkf45.errLoop f pow tol (a0 + h) h y).mrel],
          ⟨a0 + h, (srkf45.errLoop f pow tol (a0 + h) h y).s.map (h * ·),
            fun j => srkf45.rbuf f (a0 + h) h y j.succ⟩) := by
  unfold srkf45.rejected at hr
  simp only [srkf45.body, if_neg hr]

theorem loop_succ_exit (b tol : R) (n : ℕ) (st : srkf45.State R N) (hb : ¬ st.a ≤ b) :
    srkf45.loop f pow b tol (n + 1) st = ⟨[], [], st, srkf45.Status.returned⟩ := by
  simp only [srkf45.loop, if_neg hb]

theorem loop_succ_undefined (b tol : R) (n : ℕ) (st : srkf45.State R N) (hb : st.a ≤ b)
    (hh : st.h = none) :
    srkf45.loop f pow b tol (n + 1) st = ⟨[], [], st, srkf45.Status.undefined⟩ := by
  simp only [srkf45.loop, if_pos hb, hh]

theorem loop_succ_step (b tol : R) (n : ℕ) (st : srkf45.State R N) (hb : st.a ≤ b)
    (h : R) (hh : st.h = some h) :
    srkf45.loop f pow b tol (n + 1) st
      = ⟨(srkf45.body f pow tol st.a h st.y).1
            ++ (srkf45.loop f pow b tol n (srkf45.body f pow tol st.a h st.y).2).trace,
          (st.a, h, st.y) :: (srkf45.loop f pow b tol n (srkf45.body f pow tol st.a h st.y).2).attempts,
          (srkf45.loop f pow b tol n (srkf45.body f pow tol st.a h st.y).2).final,
          (srkf45.loop f pow b tol n (srkf45.body f pow tol st.a h st.y).2).status⟩ := by
  simp only [srkf45.loop, if_pos hb, hh]

/-- The callbacks of one loop iteration: none when rejected, one when accepted. -/
theorem callbacks_body (tol a0 h : R) (y : Fin N → R) :
    callbacks (srkf45.body f pow tol a0 h y).1
      = if srkf45.rejected f pow tol a0 h y then []
        else [(srkf45.rbuf f (a0 + h) h y, srkf45.dx f (a0 + h) h y,
                (srkf45.errLoop f pow tol (a0 + h) h y).mrel)] := by
  split_ifs with hr
  · rw [body_of_rejected f pow tol a0 h y hr, callbacks_stageEvents]
  · rw [body_of_accepted f pow tol a0 h y hr, callbacks_append, callbacks_stageEvents]
    rfl

/-- The variable `y` always holds the state of the most recent callback. -/
theorem loop_final_y (b tol : R) (n : ℕ) (st : srkf45.State R N) :
    (st.y :: (callbacks (srkf45.loop f pow b tol n st).trace).map
        fun c j => c.1 j.succ).getLast?
      = some (srkf45.loop f pow b tol n st).final.y := by
  induction n generalizing st with
  | zero => rfl
  | succ n ih =>
    by_cases hb : st.a ≤ b
    · cases hh : st.h with
      | none => rw [loop_succ_undefined f pow b tol n st hb hh]; rfl
      | some h =>
        rw [loop_succ_step f pow b tol n st hb h hh]
        have key := ih (srkf45.body f pow tol st.a h st.y).2
        simp only [callbacks_append, List.map_append]
        rw [callbacks_body]
        by_cases hr : srkf45.rejected f pow tol st.a h st.y
        · rw [if_pos hr]
          rw [body_of_rejected f pow tol st.a h st.y hr] at key ⊢
          simpa using key
        · rw [if_neg hr]
          rw [body_of_accepted f pow tol st.a h st.y hr] at key ⊢
          simpa [List.getLast?_cons_cons] using key
    · rw [loop_succ_exit f pow b tol n st hb]; rfl

/-- With at least one equation every loop iteration starts by evaluating a right-hand side. -/
theorem body_head (hN : N ≠ 0) (tol a0 h : R) (y : Fin N → R) :
    ∃ j x tl, (srkf45.body f pow tol a0 h y).1 = Event.eval j x :: tl := by
  obtain ⟨j, tl, hx⟩ := evalAll_head hN (srkf45.X1 (a0 + h) y)
  by_cases hr : srkf45.rejected f pow tol a0 h y
  · rw [body_of_rejected f pow tol a0 h y hr]
    exact ⟨j, _, _, by rw [srkf45.stageEvents, hx]; rfl⟩
  · rw [body_of_accepted f pow tol a0 h y hr]
    exact ⟨j, _, _, by rw [srkf45.stageEvents, hx]; rfl⟩

theorem loop_head (hN : N ≠ 0) (b tol : R) (n : ℕ) (st : srkf45.State R N) :
    (srkf45.loop f pow b tol n st).trace = []
      ∨ ∃ j x tl, (srkf45.loop f pow b tol n st).trace = Event.eval j x :: tl := by
  cases n with
  | zero => exact Or.inl rfl
  | succ n =>
    by_cases hb : st.a ≤ b
    · cases hh : st.h with
      | none => rw [loop_succ_undefined f pow b tol n st hb hh]; exact Or.inl rfl
      | some h =>
        rw [loop_succ_step f pow b tol n st hb h hh]
        obtain ⟨j, x, tl, hx⟩ := body_head f pow hN tol st.a h st.y
        exact Or.inr ⟨j, x, _, by simp only [hx]; rfl⟩
    · rw [loop_succ_exit f pow b tol n st hb]; exact Or.inl rfl

/-- At one and the same stage base time the estimator's `rel(h)` is the stepper's `mrel`. -/
theorem est_rel_eq_mrel (tol a h : R) (y : Fin N → R) :
    InitialStepSize.rel f a y h = (srkf45.errLoop f pow tol a h y).mrel := by
  rw [errLoop_mrel]
  unfold InitialStepSize.rel srkf45.rel
  congr 1; funext m j
  rw [est_rk4, est_rk5]

/-- With one equation `mrel` is the `rel` of that equation. -/
theorem errLoop_mrel_one (g : Fin 1 → (Fin 2 → R) → R) (tol a h : R) (y : Fin 1 → R) :
    (srkf45.errLoop g pow tol a h y).mrel = srkf45.rel g a h y 0 := by
  rw [errLoop_mrel]
  simp [List.finRange, rel_nonneg]

/-! ## The linear equation -/

theorem fLinear_rel (lam a h : R) (y : Fin 1 → R) (j : Fin 1) :
    srkf45.rel (fLinear lam) a h y j
      = ((|toInt (y j * (h * lam) ^ 5 * (h * lam / 2080 - 1 / 780))| : ℤ) : R) := by
  unfold srkf45.rel
  rw [fLinear_diff]

theorem fLinear_mrel (lam tol a h : R) (y : Fin 1 → R) :
    (srkf45.errLoop (fLinear lam) pow tol a h y).mrel
      = ((|toInt (y 0 * (h * lam) ^ 5 * (h * lam / 2080 - 1 / 780))| : ℤ) : R) := by
  rw [errLoop_mrel_one, fLinear_rel]

theorem fLinear_est_rel (lam a h : R) (y : Fin 1 → R) :
    InitialStepSize.rel (fLinear lam) a y h
      = ((|toInt (y 0 * (h * lam) ^ 5 * (h * lam / 2080 - 1 / 780))| : ℤ) : R) := by
  rw [est_rel_eq_mrel (fLinear lam) (fun x _ => x) 0 a h y, fLinear_mrel]

/-- The value of `mrel` for `y' = lambda*y` once the discrepancy is located between
two consecutive integers. -/
theorem fLinear_mrel_eq (lam tol a h : R) (y : Fin 1 → R) (D : R) (n : ℤ)
    (hD : y 0 * (h * lam) ^ 5 * (h * lam / 2080 - 1 / 780) = D)
    (h1 : (n : R) ≤ |D|) (h2 : |D| < n + 1) :
    (srkf45.errLoop (fLinear lam) pow tol a h y).mrel = n := by
  rw [fLinear_mrel, hD]
  exact cast_abs_toInt_eq D n h1 h2

/-! ## The decay equation at particular inputs -/

/-- From `y = 1` with `h = 1` the code's `mrel` is 0: the discrepancy `11/6240` is
truncated by the `int` conversion. -/
theorem fDecay_mrel_unit (tol a : R) :
    (srkf45.errLoop (fDecay : Fin 1 → (Fin 2 → R) → R) pow tol a 1 ![1]).mrel = 0 := by
  rw [fDecay_eq_fLinear]
  have e : (![1] : Fin 1 → R) 0 * (1 * (-1)) ^ 5 * (1 * (-1) / 2080 - 1 / 780) = 11/6240 := by
    simp only [Matrix.cons_val_zero]; norm_num
  have := fLinear_mrel_eq pow (-1) tol a 1 ![1] (11/6240) 0 e
    (by rw [abs_of_nonneg (by norm_num)]; norm_num)
    (by rw [abs_of_nonneg (by norm_num)]; norm_num)
  simpa using this

/-- From `y = 1000` with `h = 1` the discrepancy is `275/156` and `mrel = 1`. -/
theorem fDecay_mrel_thousand (tol a : R) :
    (srkf45.errLoop (fDecay : Fin 1 → (Fin 2 → R) → R) pow tol a 1 ![1000]).mrel = 1 := by
  rw [fDecay_eq_fLinear]
  have e : (![1000] : Fin 1 → R) 0 * (1 * (-1)) ^ 5 * (1 * (-1) / 2080 - 1 / 780) = 275/156 := by
    simp only [Matrix.cons_val_zero]; norm_num
  have := fLinear_mrel_eq pow (-1) tol a 1 ![1000] (275/156) 1 e
    (by rw [abs_of_nonneg (by norm_num)]; norm_num)
    (by rw [abs_of_nonneg (by norm_num)]; norm_num)
  simpa using this

theorem fDecay_accepted (a0 : R) :
    ¬ srkf45.rejected (fDecay : Fin 1 → (Fin 2 → R) → R) pow 1 a0 1 ![1] := by
  unfold srkf45.rejected
  rw [fDecay_mrel_unit]; norm_num

theorem fDecay_accepted_small_tol (a0 : R) :
    ¬ srkf45.rejected (fDecay : Fin 1 → (Fin 2 → R) → R) pow (1/100000) a0 1 ![1] := by
  unfold srkf45.rejected
  rw [fDecay_mrel_unit]; norm_num

theorem fDecay_rejected_thousand (a0 : R) :
    srkf45.rejected (fDecay : Fin 1 → (Fin 2 → R) → R) pow (1/100) a0 1 ![1000] := by
  unfold srkf45.rejected
  rw [fDecay_mrel_thousand]; norm_num

/-! ## Lemmas on the first-wins variant -/

/-- When `mrel` is not 0, `s` is the rescale factor computed from it. -/
theorem errLoop_s_of_mrel_ne_zero (tol a h : R) (y : Fin N → R)
    (hm : (srkf45.errLoop f pow tol a h y).mrel ≠ 0) :
    (srkf45.errLoop f pow tol a h y).s
      = some (0.84 * pow (tol * h / (srkf45.errLoop f pow tol a h y).mrel) 0.25) := by
  rw [errLoop_s f pow (errLoop_mrel_ne_zero_pos f pow tol a h y hm)]
  simp only [srkf45.rescale, if_neg hm]

/-! ## A run whose attempts are all rejected -/

/-- One attempt of `y' = -y/320` from `y = 12000` with `tol = 1` and a step in
`[500, 540]`: `mrel > 10*tol`, and the rescaled step is in `[500, 540]` again. -/
theorem fSlow_attempt (a0 h : ℝ) (h1 : 500 ≤ h) (h2 : h ≤ 540) :
    srkf45.rejected (fLinear (-1/320)) Real.rpow 1 a0 h ![12000]
      ∧ ∃ h', (srkf45.body (fLinear (-1/320)) Real.rpow 1 a0 h ![12000]).2
            = ⟨a0 + h - h, some h', ![12000]⟩ ∧ 500 ≤ h' ∧ h' ≤ 540 := by
  have hh : (0 : ℝ) ≤ h := by linarith
  have hP : (500 : ℝ) ^ 5 ≤ h ^ 5 := pow_le_pow_left₀ (by norm_num) h1 5
  have hm := fLinear_mrel Real.rpow (-1/320) 1 (a0 + h) h ![12000]
  have hle := cast_abs_toInt_le
    ((![12000] : Fin 1 → ℝ) 0 * (h * (-1/320)) ^ 5 * (h * (-1/320) / 2080 - 1 / 780))
  have hgt := lt_cast_abs_toInt_add_one
    ((![12000] : Fin 1 → ℝ) 0 * (h * (-1/320)) ^ 5 * (h * (-1/320) / 2080 - 1 / 780))
  rw [fSlow_abs h hh] at hle hgt
  rw [← hm] at hle hgt
  have hlin1 : (12000 : ℝ) / 320 ^ 5 * (h / 665600 + 1 / 780) ≤ 0.84 ^ 4 / 500 ^ 4 := by
    have : (12000 : ℝ) / 320 ^ 5 * (h / 665600 + 1 / 780)
        ≤ 12000 / 320 ^ 5 * (540 / 665600 + 1 / 780) := by
      apply mul_le_mul_of_nonneg_left _ (by norm_num)
      linarith
    exact le_trans this (by norm_num)
  have hlin2 : (12000 : ℝ) / 320 ^ 5 * (500 / 665600 + 1 / 780)
      ≤ 12000 / 320 ^ 5 * (h / 665600 + 1 / 780) := by
    apply mul_le_mul_of_nonneg_left _ (by norm_num)
    linarith
  have hP0 : (0 : ℝ) ≤ h ^ 5 := pow_nonneg hh 5
  have hD1 : h ^ 5 * (12000 / 320 ^ 5 * (h / 665600 + 1 / 780))
      ≤ h ^ 5 * (0.84 ^ 4 / 500 ^ 4) := mul_le_mul_of_nonneg_left hlin1 hP0
  have hD2 : h ^ 5 * (12000 / 320 ^ 5 * (500 / 665600 + 1 / 780))
      ≤ h ^ 5 * (12000 / 320 ^ 5 * (h / 665600 + 1 / 780)) :=
    mul_le_mul_of_nonneg_left hlin2 hP0
  have hm10 : (1 : ℝ) * 10
      < (srkf45.errLoop (fLinear (-1/320)) Real.rpow 1 (a0 + h) h ![12000]).mrel := by
    norm_num at hD2 hP ⊢
    linarith
  have hm0 : (0 : ℝ)
      < (srkf45.errLoop (fLinear (-1/320)) Real.rpow 1 (a0 + h) h ![12000]).mrel := by
    linarith
  have hr : srkf45.rejected (fLinear (-1/320)) Real.rpow 1 a0 h ![12000] := hm10
  have hs := errLoop_s_of_mrel_ne_zero (fLinear (-1/320)) Real.rpow 1 (a0 + h) h ![12000]
    (ne_of_gt hm0)
  have hx : 0 ≤ 1 * h
      / (srkf45.errLoop (fLinear (-1/320)) Real.rpow 1 (a0 + h) h ![12000]).mrel :=
    div_nonneg (by linarith) hm0.le
  have h4 := rescaled_step_pow_four h _ hx
  have hs0 : 0 ≤ h * (0.84 * Real.rpow (1 * h
      / (srkf45.errLoop (fLinear (-1/320)) Real.rpow 1 (a0 + h) h ![12000]).mrel) 0.25) :=
    mul_nonneg hh (mul_nonneg (by norm_num) (Real.rpow_nonneg hx _))
  have e4 : h ^ 4 * (0.84 ^ 4 * (1 * h
      / (srkf45.errLoop (fLinear (-1/320)) Real.rpow 1 (a0 + h) h ![12000]).mrel))
      = 0.84 ^ 4 * h ^ 5
        / (srkf45.errLoop (fLinear (-1/320)) Real.rpow 1 (a0 + h) h ![12000]).mrel := by
    field_simp; ring
  rw [e4] at h4
  refine ⟨hr, h * (0.84 * Real.rpow (1 * h
      / (srkf45.errLoop (fLinear (-1/320)) Real.rpow 1 (a0 + h) h ![12000]).mrel) 0.25),
    ?_, ?_, ?_⟩
  · rw [body_of_rejected _ _ _ _ _ _ hr, hs]; rfl
  · apply le_of_pow_le_pow_left₀ (by norm_num : (4 : ℕ) ≠ 0) hs0
    rw [h4, le_div_iff₀ hm0]
    norm_num at hD1 hle ⊢
    linarith
  · by_contra hcon
    have hlt := pow_lt_pow_left₀ (not_le.mp hcon) (by norm_num) (by norm_num : (4 : ℕ) ≠ 0)
    rw [h4, lt_div_iff₀ hm0] at hlt
    norm_num at hD2 hgt hP hlt
    linarith

/-- Started at time 0 with a step in `[500, 540]`, the loop for `y' = -y/320` from
`y = 12000` with `tol = 1` rejects for ever: whatever the fuel, it is still running,
has emitted no callback, and has kept `a`, `y` and the bracket of the step. -/
theorem fSlow_loop (b : ℝ) (hb : 0 ≤ b) (n : ℕ) (st : srkf45.State ℝ 1)
    (ha : st.a = 0) (hy : st.y = ![12000])
    (hst : ∃ h, st.h = some h ∧ 500 ≤ h ∧ h ≤ 540) :
    (srkf45.loop (fLinear (-1/320)) Real.rpow b 1 n st).status = srkf45.Status.running
      ∧ callbacks (srkf45.loop (fLinear (-1/320)) Real.rpow b 1 n st).trace = []
      ∧ (srkf45.loop (fLinear (-1/320)) Real.rpow b 1 n st).final.a = 0
      ∧ (srkf45.loop (fLinear (-1/320)) Real.rpow b 1 n st).final.y = ![12000]
      ∧ (srkf45.loop (fLinear (-1/320)) Real.rpow b 1 n st).attempts.length = n
      ∧ ∀ p ∈ (srkf45.loop (fLinear (-1/320)) Real.rpow b 1 n st).attempts,
          p.1 = 0 ∧ p.2.2 = ![12000] ∧ 500 ≤ p.2.1 ∧ p.2.1 ≤ 540
            ∧ srkf45.rejected (fLinear (-1/320)) Real.rpow 1 p.1 p.2.1 p.2.2 := by
  induction n generalizing st with
  | zero => exact ⟨rfl, rfl, ha, hy, rfl, fun p hp => by cases hp⟩
  | succ n ih =>
    obtain ⟨h, hh, h1, h2⟩ := hst
    have hab : st.a ≤ b := by rw [ha]; exact hb
    obtain ⟨hr, h', hbody, h1', h2'⟩ := fSlow_attempt st.a h h1 h2
    rw [← hy] at hr hbody
    have hnext := ih (srkf45.body (fLinear (-1/320)) Real.rpow 1 st.a h st.y).2
      (by rw [hbody]; simp [ha]) (by rw [hbody]; exact hy) ⟨h', by rw [hbody], h1', h2'⟩
    rw [loop_succ_step (fLinear (-1/320)) Real.rpow b 1 n st hab h hh]
    obtain ⟨i1, i2, i3, i4, i5, i6⟩ := hnext
    refine ⟨i1, ?_, i3, i4, ?_, ?_⟩
    · simp only [callbacks_append, i2, List.append_nil]
      rw [callbacks_body, if_pos hr]
    · simp only [List.length_cons, i5]
    · intro p hp
      rcases List.mem_cons.mp hp with rfl | hp
      · exact ⟨ha, hy, h1, h2, hr⟩
      · exact i6 p hp

end LemmasInt

/-! ## Claims -/

section ClaimsStepper
variable [FloorRing R]

/-- C2. Before the loop is entered (no loop iteration performed) the trace is exactly
one callback, with `r = (a, y)` and error 0, and no right-hand side has been
evaluated. In every run that callback is the first event, and with at least one
equation whatever follows it starts with a right-hand-side evaluation of the first
step attempt. -/
theorem C2_initial_callback (f : Fin N → (Fin (N+1) → R) → R) (pow : R → R → R)
    (a b h : R) (y : Fin N → R) (tol : R) (fuel : ℕ) :
    (srkf45 0 f pow a b h y tol).trace
        = [Event.callback (Fin.cons a y) (fun j => (Fin.cons a y : Fin (N+1) → R) j.castSucc) 0]
      ∧ (∃ rest, (srkf45 fuel f pow a b h y tol).trace
            = Event.callback (Fin.cons a y)
                (fun j => (Fin.cons a y : Fin (N+1) → R) j.castSucc) 0 :: rest
          ∧ (N = 0 ∨ rest = [] ∨ ∃ j x tl, rest = Event.eval j x :: tl))
      ∧ (Fin.cons a y : Fin (N+1) → R) 0 = a
      ∧ ∀ j : Fin N, (Fin.cons a y : Fin (N+1) → R) j.succ = y j := by
  refine ⟨rfl, ⟨_, rfl, ?_⟩, Fin.cons_zero _ _, fun j => Fin.cons_succ _ _ _⟩
  by_cases hN : N = 0
  · exact Or.inl hN
  · exact Or.inr (loop_head f pow hN b tol fuel _)

/-- C3. What the code does in a step attempt entered with `(a0, h, y)`: `rel[j]` is
the integer part of `|rk5[j] - rk4[j]|` (line 86 calls `int abs(int)`), `mrel` is
the maximum of the `rel[j]`, and the attempt emits no callback exactly when
`mrel > 10*tol`. So the test and the delivered error use the truncated value, not
`max_j |rk5[j] - rk4[j]|`: for `y' = -y` from `y = 1` at time 0 with `h = 1` and
`tol = 1/100000` the two estimates differ by `11/6240 > 10*tol`, yet the attempt is
accepted and its callback delivers the error 0. -/
theorem C3_delivered_error_is_truncated (f : Fin N → (Fin (N+1) → R) → R)
    (pow : R → R → R) (a0 h : R) (y : Fin N → R) (tol : R) :
    ((∀ j, srkf45.rel f (a0 + h) h y j
          = ((⌊|srkf45.rk5 f (a0 + h) h y j - srkf45.rk4 f (a0 + h) h y j|⌋ : ℤ) : R))
      ∧ (∀ j, srkf45.rel f (a0 + h) h y j ≤ (srkf45.errLoop f pow tol (a0 + h) h y).mrel)
      ∧ ((N = 0 ∧ (srkf45.errLoop f pow tol (a0 + h) h y).mrel = 0)
          ∨ ∃ j, (srkf45.errLoop f pow tol (a0 + h) h y).mrel = srkf45.rel f (a0 + h) h y j)
      ∧ (callbacks (srkf45.body f pow tol a0 h y).1 = []
          ↔ (srkf45.errLoop f pow tol (a0 + h) h y).mrel > tol * 10))
    ∧ (|srkf45.rk5 fDecay ((0 : ℝ) + 1) 1 ![1] 0 - srkf45.rk4 fDecay ((0 : ℝ) + 1) 1 ![1] 0|
          = 11/6240
      ∧ (1/100000 : ℝ) * 10 < 11/6240
      ∧ callbacks (srkf45.body fDecay Real.rpow (1/100000) (0 : ℝ) 1 ![1]).1
          = [(srkf45.rbuf fDecay (0 + 1) 1 ![1], srkf45.dx fDecay (0 + 1) 1 ![1], 0)]) := by
  refine ⟨⟨fun j => rel_eq_floor f _ h y j, fun j => errLoop_rel_le f pow tol _ h y j, ?_, ?_⟩,
    fDecay_diff_unit _, by norm_num, ?_⟩
  · by_cases hN : N = 0
    · exact Or.inl ⟨hN, by rw [errLoop_zero_eqs f pow hN]⟩
    · exact Or.inr (errLoop_mrel_attained f pow (Nat.pos_of_ne_zero hN) tol _ h y)
  · rw [callbacks_body]
    by_cases hr : srkf45.rejected f pow tol a0 h y
    · rw [if_pos hr]; exact ⟨fun _ => hr, fun _ => rfl⟩
    · rw [if_neg hr]
      exact ⟨fun hnil => absurd hnil (List.cons_ne_nil _ _), fun hm => absurd hm hr⟩
  · rw [callbacks_body, if_neg (fDecay_accepted_small_tol Real.rpow 0), fDecay_mrel_unit]

/-- C5. An accepted step attempt entered with `(a0, h, y)` commits
`y_new[j] = rk5[j] = y[j] + h*dx[j]`, and its single callback receives the time
`a0 + h` followed by exactly `y_new`, together with that same `dx`. In every run the
caller's `y` at the end equals the state delivered in the last callback, in
particular when `srkf45` returns. -/
theorem C5_accepted_commit_and_final_state (f : Fin N → (Fin (N+1) → R) → R)
    (pow : R → R → R) (a0 b h : R) (y : Fin N → R) (tol : R) (fuel : ℕ) :
    (¬ srkf45.rejected f pow tol a0 h y →
        (∀ j, (srkf45.body f pow tol a0 h y).2.y j = srkf45.rk5 f (a0 + h) h y j
            ∧ srkf45.rk5 f (a0 + h) h y j = y j + h * srkf45.dx f (a0 + h) h y j)
          ∧ callbacks (srkf45.body f pow tol a0 h y).1
              = [(Fin.cons (a0 + h) (srkf45.body f pow tol a0 h y).2.y,
                  srkf45.dx f (a0 + h) h y, (srkf45.errLoop f pow tol (a0 + h) h y).mrel)])
      ∧ ((callbacks (srkf45 fuel f pow a0 b h y tol).trace).getLast?.map fun c j => c.1 j.succ)
          = some (srkf45 fuel f pow a0 b h y tol).final.y := by
  refine ⟨fun hr => ?_, ?_⟩
  · have hc := callbacks_body f pow tol a0 h y
    rw [if_neg hr] at hc
    rw [body_of_accepted f pow tol a0 h y hr] at hc ⊢
    refine ⟨fun j => ⟨by simp [srkf45.rbuf], rfl⟩, ?_⟩
    rw [hc]
    have : (fun j : Fin N => srkf45.rbuf f (a0 + h) h y j.succ) = srkf45.rk5 f (a0 + h) h y := by
      funext j; simp [srkf45.rbuf]
    simp only [this]
    rfl
  · have key := loop_final_y f pow b tol fuel ⟨a0, some h, y⟩
    simp only [srkf45, srkf45.initialCallback, callbacks]
    rw [← key, ← List.getLast?_map]
    simp only [List.map_cons]
    congr 2

/-- C5 at a concrete input: the decay equation over the reals with the real power
function, `h = 1` from `y = 1` at time 0 with `tol = 1` is accepted. -/
theorem C5_accepted_commit_and_final_state_witness :
    ¬ srkf45.rejected fDecay Real.rpow 1 (0 : ℝ) 1 ![1]
      ∧ (∀ j, (srkf45.body fDecay Real.rpow 1 (0 : ℝ) 1 ![1]).2.y j
            = srkf45.rk5 fDecay (0 + 1) 1 ![1] j
          ∧ srkf45.rk5 fDecay (0 + 1) 1 ![(1 : ℝ)] j
            = ![(1 : ℝ)] j + 1 * srkf45.dx fDecay (0 + 1) 1 ![1] j) :=
  ⟨fDecay_accepted Real.rpow 0,
    ((C5_accepted_commit_and_final_state fDecay Real.rpow 0 2 1 ![1] 1 0).1
      (fDecay_accepted Real.rpow 0)).1⟩

/-- C7. The estimator's `rel(h)` at start time `a` is the stepper's `mrel` for an attempt
whose stages are based at that same time `a`; but the first attempt of `srkf45`
started from `a` bases its stages at `a + h` (line 52 runs before line 55), so it
computes the estimator's value for start time `a + h`. For `y' = t*y` from `t = 0`,
`y = 1000` with `h = 1` the estimator gives `rel(1) = 0` (discrepancy about 0.245),
while the first attempt of `srkf45` (accepted at `tol = 1`) delivers `mrel = 1`
(discrepancy about 1.199). -/
theorem C7_estimator_rel_differs_from_first_attempt (f : Fin N → (Fin (N+1) → R) → R)
    (pow : R → R → R) (a h tol : R) (y : Fin N → R) :
    InitialStepSize.rel f (a + h) y h = (srkf45.errLoop f pow tol (a + h) h y).mrel
      ∧ InitialStepSize.rel (fTimesState : Fin 1 → (Fin 2 → ℚ) → ℚ) 0 ![1000] 1 = 0
      ∧ ∀ pow : ℚ → ℚ → ℚ,
          (callbacks (srkf45.body (fTimesState : Fin 1 → (Fin 2 → ℚ) → ℚ) pow 1 0 1
              ![1000]).1).map (fun c => c.2.2) = [1] := by
  have hm : ∀ pow : ℚ → ℚ → ℚ,
      (srkf45.errLoop (fTimesState : Fin 1 → (Fin 2 → ℚ) → ℚ) pow 1 (0 + 1) 1 ![1000]).mrel
        = 1 := by
    intro pow
    rw [← est_rel_eq_mrel]
    decide!
  refine ⟨est_rel_eq_mrel f pow tol (a + h) h y, by decide!, ?_⟩
  intro pow
  have hr : ¬ srkf45.rejected (fTimesState : Fin 1 → (Fin 2 → ℚ) → ℚ) pow 1 0 1 ![1000] := by
    unfold srkf45.rejected
    rw [hm]; norm_num
  rw [callbacks_body, if_neg hr]
  simp only [List.map_cons, List.map_nil, hm]

/-- C8. In the step attempt entered with `(a0, h, y)`, stage `i` evaluates `f[0..N-1]`
once each, in order, at the trial vector `Xi`; the state components of `Xi` are
`y[m] + h * sum_l B(i,l+1) * K_l[m]`; but the time component of `Xi` is
`a0 + c_i*h + h` with `c = (0, 1/4, 3/8, 12/13, 1, 1/2)`: every stage is evaluated
one whole step `h` later than the tableau-prescribed time `a0 + c_i*h`. -/
theorem C8_stage_points_shifted_by_h (f : Fin N → (Fin (N+1) → R) → R) (pow : R → R → R)
    (a0 h : R) (y : Fin N → R) (tol : R) :
    evals (srkf45.body f pow tol a0 h y).1
        = ((List.finRange N).map fun j => (j, srkf45.X1 (a0 + h) y))
          ++ ((List.finRange N).map fun j => (j, srkf45.X2 f (a0 + h) h y))
          ++ ((List.finRange N).map fun j => (j, srkf45.X3 f (a0 + h) h y))
          ++ ((List.finRange N).map fun j => (j, srkf45.X4 f (a0 + h) h y))
          ++ ((List.finRange N).map fun j => (j, srkf45.X5 f (a0 + h) h y))
          ++ ((List.finRange N).map fun j => (j, srkf45.X6 f (a0 + h) h y))
      ∧ (srkf45.X1 (a0 + h) y 0 = a0 + 0 * h + h
          ∧ srkf45.X2 f (a0 + h) h y 0 = a0 + 1/4 * h + h
          ∧ srkf45.X3 f (a0 + h) h y 0 = a0 + 3/8 * h + h
          ∧ srkf45.X4 f (a0 + h) h y 0 = a0 + 12/13 * h + h
          ∧ srkf45.X5 f (a0 + h) h y 0 = a0 + 1 * h + h
          ∧ srkf45.X6 f (a0 + h) h y 0 = a0 + 1/2 * h + h)
      ∧ ∀ m : Fin N,
          srkf45.X1 (a0 + h) y m.succ = y m
          ∧ srkf45.X2 f (a0 + h) h y m.succ = y m + h * (1/4 * f m (srkf45.X1 (a0 + h) y))
          ∧ srkf45.X3 f (a0 + h) h y m.succ
              = y m + h * (3/32 * f m (srkf45.X1 (a0 + h) y)
                  + 9/32 * f m (srkf45.X2 f (a0 + h) h y))
          ∧ srkf45.X4 f (a0 + h) h y m.succ
              = y m + h * (1932/2197 * f m (srkf45.X1 (a0 + h) y)
                  + -7200/2197 * f m (srkf45.X2 f (a0 + h) h y)
                  + 7296/2197 * f m (srkf45.X3 f (a0 + h) h y))
          ∧ srkf45.X5 f (a0 + h) h y m.succ
              = y m + h * (439/216 * f m (srkf45.X1 (a0 + h) y)
                  + -8 * f m (srkf45.X2 f (a0 + h) h y)
                  + 3680/513 * f m (srkf45.X3 f (a0 + h) h y)
                  + -845/4104 * f m (srkf45.X4 f (a0 + h) h y))
          ∧ srkf45.X6 f (a0 + h) h y m.succ
              = y m + h * (-8/27 * f m (srkf45.X1 (a0 + h) y)
                  + 2 * f m (srkf45.X2 f (a0 + h) h y)
                  + -3544/2565 * f m (srkf45.X3 f (a0 + h) h y)
                  + 1859/4104 * f m (srkf45.X4 f (a0 + h) h y)
                  + -11/40 * f m (srkf45.X5 f (a0 + h) h y)) := by
  refine ⟨?_, ?_, ?_⟩
  · have hs : evals (srkf45.stageEvents f (a0 + h) h y)
        = ((List.finRange N).map fun j => (j, srkf45.X1 (a0 + h) y))
          ++ ((List.finRange N).map fun j => (j, srkf45.X2 f (a0 + h) h y))
          ++ ((List.finRange N).map fun j => (j, srkf45.X3 f (a0 + h) h y))
          ++ ((List.finRange N).map fun j => (j, srkf45.X4 f (a0 + h) h y))
          ++ ((List.finRange N).map fun j => (j, srkf45.X5 f (a0 + h) h y))
          ++ ((List.finRange N).map fun j => (j, srkf45.X6 f (a0 + h) h y)) := by
      simp only [srkf45.stageEvents, evals_append, evalAll, evals_map_eval]
    by_cases hr : srkf45.rejected f pow tol a0 h y
    · rw [body_of_rejected f pow tol a0 h y hr, hs]
    · rw [body_of_accepted f pow tol a0 h y hr, evals_append, hs]
      simp [evals]
  · have h21 : (B 2 1 : R) = 1/4 := rfl
    have h31 : (B 3 1 : R) = 3/8 := rfl
    have h41 : (B 4 1 : R) = 12/13 := rfl
    have h51 : (B 5 1 : R) = 1 := rfl
    have h61 : (B 6 1 : R) = 1/2 := rfl
    simp only [srkf45.X1, srkf45.X2, srkf45.X3, srkf45.X4, srkf45.X5, srkf45.X6, Fin.cons_zero,
      h21, h31, h41, h51, h61]
    refine ⟨?_, ?_, ?_, ?_, ?_, ?_⟩ <;> ring
  · intro m
    have h22 : (B 2 2 : R) = 1/4 := rfl
    have h32 : (B 3 2 : R) = 3/32 := rfl
    have h33 : (B 3 3 : R) = 9/32 := rfl
    have h42 : (B 4 2 : R) = 1932/2197 := rfl
    have h43 : (B 4 3 : R) = -7200/2197 := rfl
    have h44 : (B 4 4 : R) = 7296/2197 := rfl
    have h52 : (B 5 2 : R) = 439/216 := rfl
    have h53 : (B 5 3 : R) = -8 := rfl
    have h54 : (B 5 4 : R) = 3680/513 := rfl
    have h55 : (B 5 5 : R) = -845/4104 := rfl
    have h62 : (B 6 2 : R) = -8/27 := rfl
    have h63 : (B 6 3 : R) = 2 := rfl
    have h64 : (B 6 4 : R) = -3544/2565 := rfl
    have h65 : (B 6 5 : R) = 1859/4104 := rfl
    have h66 : (B 6 6 : R) = -11/40 := rfl
    refine ⟨?_, ?_, ?_, ?_, ?_, ?_⟩
    · simp only [srkf45.X1, Fin.cons_succ]
    · simp only [srkf45.X2, Fin.cons_succ, srkf45.K1, h22]
    · simp only [srkf45.X3, Fin.cons_succ, srkf45.K1, srkf45.K2, h32, h33]
    · simp only [srkf45.X4, Fin.cons_succ, srkf45.K1, srkf45.K2, srkf45.K3, h42, h43, h44]
    · simp only [srkf45.X5, Fin.cons_succ, srkf45.K1, srkf45.K2, srkf45.K3, srkf45.K4,
        h52, h53, h54, h55]
    · simp only [srkf45.X6, Fin.cons_succ, srkf45.K1, srkf45.K2, srkf45.K3, srkf45.K4,
        srkf45.K5, h62, h63, h64, h65, h66]

/-- C9, counterexample. For the decay equation `y' = -y` from `y = 1` on `[0, 100]` with
`tol = 1` the 32nd bisection test fails: the returned step is
`h0 = 13881061957/4294967296` and `rel(h0) >= tol`. -/
theorem C9_counterexample :
    (0 : ℚ) < 1
      ∧ InitialStepSize (fDecay : Fin 1 → (Fin 2 → ℚ) → ℚ) 0 100 ![1] 1
          = 13881061957/4294967296
      ∧ ¬ (InitialStepSize.rel (fDecay : Fin 1 → (Fin 2 → ℚ) → ℚ) 0 ![1]
            (InitialStepSize (fDecay : Fin 1 → (Fin 2 → ℚ) → ℚ) 0 100 ![1] 1) < 1) := by
  refine ⟨by norm_num, by decide!, by decide!⟩

/-- C9, amended. After the 32 iterations the lower end `l` of the bracket is the
initial `tol` or satisfies `rel(l) < tol`, and the bracket has width
`r - l = (b - a - tol)/2^32`. The returned `h0` is the last midpoint: it equals `l`
when the last test `rel(h0) < tol` succeeded, and otherwise it equals the upper end
`r` and `rel(h0) >= tol`. -/
theorem C9_returned_step_is_last_midpoint (f : Fin N → (Fin (N+1) → R) → R)
    (a b : R) (y : Fin N → R) (tol : R) :
    InitialStepSize f a b y tol = (InitialStepSize.bisect (InitialStepSize.rel f a y) a b tol 32).c
      ∧ ((InitialStepSize.bisect (InitialStepSize.rel f a y) a b tol 32).l = tol
          ∨ InitialStepSize.rel f a y
              (InitialStepSize.bisect (InitialStepSize.rel f a y) a b tol 32).l < tol)
      ∧ (InitialStepSize.bisect (InitialStepSize.rel f a y) a b tol 32).r
            - (InitialStepSize.bisect (InitialStepSize.rel f a y) a b tol 32).l
          = (b - a - tol) / 2 ^ 32
      ∧ ((InitialStepSize.rel f a y (InitialStepSize f a b y tol) < tol
            ∧ InitialStepSize f a b y tol
                = (InitialStepSize.bisect (InitialStepSize.rel f a y) a b tol 32).l)
          ∨ (tol ≤ InitialStepSize.rel f a y (InitialStepSize f a b y tol)
            ∧ InitialStepSize f a b y tol
                = (InitialStepSize.bisect (InitialStepSize.rel f a y) a b tol 32).r)) :=
  ⟨rfl, bisect_lower _ a b tol 32, bisect_width _ a b tol 32, bisect_mid _ a b tol 31⟩

/-- C10, counterexample. With `a = b = 0` and `tol = 1` (so `a <= b` and `tol > 0`) the
bracket `[tol, b - a]` is empty; the decay equation from `y = 1` returns
`h0 = 1/2^32`, which is neither `>= tol` nor `<= b - a`. -/
theorem C10_counterexample :
    (0 : ℚ) < 1 ∧ (0 : ℚ) ≤ 0
      ∧ InitialStepSize (fDecay : Fin 1 → (Fin 2 → ℚ) → ℚ) 0 0 ![1] 1 = 1 / 2 ^ 32
      ∧ ¬ (1 ≤ InitialStepSize (fDecay : Fin 1 → (Fin 2 → ℚ) → ℚ) 0 0 ![1] 1
            ∧ InitialStepSize (fDecay : Fin 1 → (Fin 2 → ℚ) → ℚ) 0 0 ![1] 1 ≤ 0 - 0) := by
  have h0 : InitialStepSize (fDecay : Fin 1 → (Fin 2 → ℚ) → ℚ) 0 0 ![1] 1 = 1 / 2 ^ 32 := by
    decide!
  refine ⟨by norm_num, le_rfl, h0, ?_⟩
  rw [h0]; norm_num

/-- C10, amended. When the search bracket is not empty, `tol <= b - a`, the returned
step lies in it: `tol <= h0 <= b - a`. -/
theorem C10_returned_step_in_bracket (f : Fin N → (Fin (N+1) → R) → R)
    (a b : R) (y : Fin N → R) (tol : R) (hab : tol ≤ b - a) :
    tol ≤ InitialStepSize f a b y tol ∧ InitialStepSize f a b y tol ≤ b - a := by
  obtain ⟨h1, h2, h3⟩ := bisect_ordered (InitialStepSize.rel f a y) a b tol hab 32
  rcases bisect_mid (InitialStepSize.rel f a y) a b tol 31 with ⟨_, hc⟩ | ⟨_, hc⟩
  · unfold InitialStepSize
    rw [hc]; exact ⟨h1, le_trans h2 h3⟩
  · unfold InitialStepSize
    rw [hc]; exact ⟨le_trans h1 h2, h3⟩

/-- C10 amended at a concrete input: the decay equation from `y = 1` on `[0, 1]`
with `tol = 1/1000`. -/
theorem C10_returned_step_in_bracket_witness :
    (1/1000 : ℚ) ≤ 1 - 0
      ∧ 1/1000 ≤ InitialStepSize (fDecay : Fin 1 → (Fin 2 → ℚ) → ℚ) 0 1 ![1] (1/1000)
      ∧ InitialStepSize (fDecay : Fin 1 → (Fin 2 → ℚ) → ℚ) 0 1 ![1] (1/1000) ≤ 1 - 0 :=
  ⟨by norm_num, C10_returned_step_in_bracket fDecay 0 1 ![1] (1/1000) (by norm_num)⟩

/-- C11. When `tol <= b - a` and the error function has a threshold `hstar` in
`[tol, b - a]` with `rel(h) < tol` for `tol <= h < hstar` and `rel(h) >= tol` for
`hstar < h <= b - a`, the returned step is within the final bracket width of the
threshold: `|h0 - hstar| <= (b - a - tol)/2^32`. -/
theorem C11_bisection_locates_threshold (f : Fin N → (Fin (N+1) → R) → R)
    (a b : R) (y : Fin N → R) (tol : R) (hab : tol ≤ b - a)
    (hstar : R) (h1 : tol ≤ hstar) (h2 : hstar ≤ b - a)
    (hlt : ∀ h, tol ≤ h → h < hstar → InitialStepSize.rel f a y h < tol)
    (hge : ∀ h, hstar < h → h ≤ b - a → tol ≤ InitialStepSize.rel f a y h) :
    |InitialStepSize f a b y tol - hstar| ≤ (b - a - tol) / 2 ^ 32 := by
  obtain ⟨k1, k2⟩ :=
    bisect_brackets_threshold (InitialStepSize.rel f a y) a b tol hab hstar h1 h2 hlt hge 32
  have hw := bisect_width (InitialStepSize.rel f a y) a b tol 32
  rw [abs_le]
  rcases bisect_mid (InitialStepSize.rel f a y) a b tol 31 with ⟨_, hc⟩ | ⟨_, hc⟩
  · unfold InitialStepSize
    rw [hc]
    constructor <;> linarith
  · unfold InitialStepSize
    rw [hc]
    constructor <;> linarith

/-- C11 at a concrete input: `y' = -y` from `y = 195/14` on `[0, 4]` with `tol = 1`.
The discrepancy `(195/14) h^5 (h/2080 + 1/780)` is 1 exactly at `hstar = 2`, so the
code's `rel(h)` is 0 below it and at least 1 above it. -/
theorem C11_bisection_locates_threshold_witness :
    (1 : ℚ) ≤ 4 - 0 ∧ (1 : ℚ) ≤ 2 ∧ (2 : ℚ) ≤ 4 - 0
      ∧ (∀ h : ℚ, 1 ≤ h → h < 2 → InitialStepSize.rel (fLinear (-1)) 0 ![195/14] h < 1)
      ∧ (∀ h : ℚ, 2 < h → h ≤ 4 - 0 → 1 ≤ InitialStepSize.rel (fLinear (-1)) 0 ![195/14] h)
      ∧ |InitialStepSize (fLinear (-1)) (0 : ℚ) 4 ![195/14] 1 - 2| ≤ (4 - 0 - 1) / 2 ^ 32 := by
  have hy : |(195/14 : ℚ)| = 195/14 := abs_of_nonneg (by norm_num)
  have hlt : ∀ h : ℚ, 1 ≤ h → h < 2 →
      InitialStepSize.rel (fLinear (-1)) 0 ![195/14] h < 1 := by
    intro h hl hu
    have h0 : (0 : ℚ) ≤ h := le_trans (by norm_num) hl
    rw [fLinear_est_rel, cast_abs_toInt_lt_one]
    · norm_num
    · simp only [Matrix.cons_val_zero]
      rw [fLinear_neg_one_abs h h0, hy]
      have h5 : h ^ 5 < 2 ^ 5 := pow_lt_pow_left₀ hu h0 (by norm_num)
      have h5' : 0 ≤ h ^ 5 := pow_nonneg h0 5
      nlinarith
  have hge : ∀ h : ℚ, 2 < h → h ≤ 4 - 0 →
      1 ≤ InitialStepSize.rel (fLinear (-1)) 0 ![195/14] h := by
    intro h hl _
    have h0 : (0 : ℚ) ≤ h := le_trans (by norm_num) hl.le
    rw [fLinear_est_rel]
    apply one_le_cast_abs_toInt
    simp only [Matrix.cons_val_zero]
    rw [fLinear_neg_one_abs h h0, hy]
    have h5 : (2 : ℚ) ^ 5 ≤ h ^ 5 := pow_le_pow_left₀ (by norm_num) hl.le 5
    nlinarith
  exact ⟨by norm_num, by norm_num, by norm_num, hlt, hge,
    C11_bisection_locates_threshold (fLinear (-1)) 0 4 ![195/14] 1 (by norm_num) 2
      (by norm_num) (by norm_num) hlt hge⟩

end ClaimsStepper

/-- C12. The tableau is consistent: in each stage row `i = 2..6` the time fraction
`B(i,1)` is the sum of the stage coefficients `B(i,2)..B(i,i)` and the entries right
of column `i` are 0; both weight rows sum to one; the weights the code leaves out
(`B(7,3)`, `B(8,3)`, `B(8,7)`) are 0. For a constant right-hand side `f[j] = c[j]`
one step attempt gives `rk4[j] = rk5[j] = y[j] + h*c[j]`. -/
theorem C12_tableau_consistent (c : Fin N → R) (a h : R) (y : Fin N → R) :
    ((B 2 1 : R) = B 2 2
        ∧ (B 3 1 : R) = B 3 2 + B 3 3
        ∧ (B 4 1 : R) = B 4 2 + B 4 3 + B 4 4
        ∧ (B 5 1 : R) = B 5 2 + B 5 3 + B 5 4 + B 5 5
        ∧ (B 6 1 : R) = B 6 2 + B 6 3 + B 6 4 + B 6 5 + B 6 6)
      ∧ (∀ i k : ℕ, 2 ≤ i → i ≤ 6 → i < k → k ≤ 7 → (B i k : R) = 0)
      ∧ (B 7 2 : R) + B 7 3 + B 7 4 + B 7 5 + B 7 6 + B 7 7 = 1
      ∧ (B 8 2 : R) + B 8 3 + B 8 4 + B 8 5 + B 8 6 + B 8 7 = 1
      ∧ ((B 7 3 : R) = 0 ∧ (B 8 3 : R) = 0 ∧ (B 8 7 : R) = 0)
      ∧ ∀ j, srkf45.rk4 (fConst c) a h y j = y j + h * c j
          ∧ srkf45.rk5 (fConst c) a h y j = y j + h * c j := by
  refine ⟨?_, ?_, ?_, ?_, ⟨rfl, rfl, rfl⟩, ?_⟩
  · refine ⟨rfl, ?_, ?_, ?_, ?_⟩ <;> simp only [B, tableau] <;> norm_num
  · intro i k hi1 hi2 hk1 hk2
    interval_cases i <;> interval_cases k <;> rfl
  · simp only [B, tableau]; norm_num
  · simp only [B, tableau]; norm_num
  · intro j
    have h82 : (B 8 2 : R) = 25/216 := rfl
    have h84 : (B 8 4 : R) = 1408/2565 := rfl
    have h85 : (B 8 5 : R) = 2197/4104 := rfl
    have h86 : (B 8 6 : R) = -1/5 := rfl
    have h72 : (B 7 2 : R) = 16/135 := rfl
    have h74 : (B 7 4 : R) = 6656/12825 := rfl
    have h75 : (B 7 5 : R) = 28561/56430 := rfl
    have h76 : (B 7 6 : R) = -9/50 := rfl
    have h77 : (B 7 7 : R) = 2/55 := rfl
    constructor
    · simp only [srkf45.rk4, srkf45.K1, srkf45.K3, srkf45.K4, srkf45.K5, fConst,
        h82, h84, h85, h86]
      ring
    · simp only [srkf45.rk5, srkf45.dx, srkf45.K1, srkf45.K3, srkf45.K4, srkf45.K5,
        srkf45.K6, fConst, h72, h74, h75, h76, h77]
      ring

section ClaimsRescale
variable [FloorRing R]

/-- C14, counterexample. For `y' = -y/320` from `y = 127920/11` at time 0 with
`h = 320` and `tol = 1` the two estimates differ by `41/2`, so `mrel = 20 > 10*tol`
and the attempt is rejected, yet `s = 0.84 * 16^(1/4) = 42/25 > 1`: the retried step
`h*s = 2688/5` is larger. -/
theorem C14_counterexample :
    (0 : ℝ) < 1 ∧ (0 : ℝ) < 320
      ∧ srkf45.rejected (fLinear (-1/320)) Real.rpow 1 (0 : ℝ) 320 ![127920/11]
      ∧ (srkf45.errLoop (fLinear (-1/320)) Real.rpow 1 ((0 : ℝ) + 320) 320 ![127920/11]).s
          = some (42/25)
      ∧ (srkf45.body (fLinear (-1/320)) Real.rpow 1 (0 : ℝ) 320 ![127920/11]).2.h
          = some (2688/5)
      ∧ ¬ ((42/25 : ℝ) < 1) ∧ ¬ ((2688/5 : ℝ) < 320) := by
  have e : (![127920/11] : Fin 1 → ℝ) 0 * (320 * (-1/320)) ^ 5 * (320 * (-1/320) / 2080 - 1 / 780)
      = 41/2 := by
    simp only [Matrix.cons_val_zero]; norm_num
  have hm : (srkf45.errLoop (fLinear (-1/320)) Real.rpow 1 ((0 : ℝ) + 320) 320
      ![127920/11]).mrel = 20 := by
    have := fLinear_mrel_eq Real.rpow (-1/320) 1 ((0 : ℝ) + 320) 320 ![127920/11] (41/2) 20 e
      (by rw [abs_of_nonneg (by norm_num)]; norm_num)
      (by rw [abs_of_nonneg (by norm_num)]; norm_num)
    simpa using this
  have hr : srkf45.rejected (fLinear (-1/320)) Real.rpow 1 (0 : ℝ) 320 ![127920/11] := by
    unfold srkf45.rejected
    rw [hm]; norm_num
  have hs : (srkf45.errLoop (fLinear (-1/320)) Real.rpow 1 ((0 : ℝ) + 320) 320
      ![127920/11]).s = some (42/25) := by
    rw [errLoop_s _ _ Nat.one_pos, hm]
    have hq : (1 : ℝ) * 320 / 20 = 16 := by norm_num
    simp only [srkf45.rescale, hq, rpow_sixteen]
    norm_num
  refine ⟨by norm_num, by norm_num, hr, hs, ?_, by norm_num, by norm_num⟩
  rw [body_of_rejected _ _ _ _ _ _ hr]
  simp only [hs, Option.map_some']
  norm_num

/-- C14, amended. Over the reals with the real power function: on a rejected step
attempt with `tol > 0` and `0 < h <= 20` the rescale factor is
`s = 0.84*(tol*h/mrel)^(1/4)` with `0 <= s < 1`, and the retried step size `h*s` is
strictly smaller than `h`. -/
theorem C14_rejected_step_shrinks (f : Fin N → (Fin (N+1) → ℝ) → ℝ)
    (a0 h : ℝ) (y : Fin N → ℝ) (tol : ℝ) (htol : 0 < tol) (hh : 0 < h)
    (hbound : h ≤ 20) (hr : srkf45.rejected f Real.rpow tol a0 h y) :
    ∃ s, (srkf45.errLoop f Real.rpow tol (a0 + h) h y).s = some s
      ∧ s = 0.84 * Real.rpow (tol * h / (srkf45.errLoop f Real.rpow tol (a0 + h) h y).mrel) 0.25
      ∧ 0 ≤ s ∧ s < 1
      ∧ (srkf45.body f Real.rpow tol a0 h y).2.h = some (h * s)
      ∧ h * s < h := by
  have hm10 : tol * 10 < (srkf45.errLoop f Real.rpow tol (a0 + h) h y).mrel := hr
  have hm : 0 < (srkf45.errLoop f Real.rpow tol (a0 + h) h y).mrel :=
    lt_trans (by positivity) hm10
  have hs := errLoop_s_of_mrel_ne_zero f Real.rpow tol (a0 + h) h y (ne_of_gt hm)
  have hq0 : 0 < tol * h / (srkf45.errLoop f Real.rpow tol (a0 + h) h y).mrel :=
    div_pos (mul_pos htol hh) hm
  have hq1 : tol * h / (srkf45.errLoop f Real.rpow tol (a0 + h) h y).mrel < (25/21) ^ 4 := by
    rw [div_lt_iff₀ hm]
    have h1 : tol * h ≤ tol * 20 := mul_le_mul_of_nonneg_left hbound htol.le
    have h2 : (2 : ℝ) < (25/21) ^ 4 := by norm_num
    nlinarith
  have hs1 := rescale_factor_lt_one _ hq0 hq1
  have hs0 : 0 ≤ 0.84 * Real.rpow
      (tol * h / (srkf45.errLoop f Real.rpow tol (a0 + h) h y).mrel) 0.25 :=
    mul_nonneg (by norm_num) (Real.rpow_nonneg hq0.le _)
  refine ⟨_, hs, rfl, hs0, hs1, ?_, ?_⟩
  · rw [body_of_rejected f Real.rpow tol a0 h y hr]
    simp only [hs, Option.map_some']
  · nlinarith

/-- C14 amended at a concrete input: `y' = -y` from `y = 1000` with `h = 1` and
`tol = 1/100`, where `mrel = 1 > 10*tol` and the attempt is rejected. -/
theorem C14_rejected_step_shrinks_witness :
    (0 : ℝ) < 1/100 ∧ (0 : ℝ) < 1 ∧ (1 : ℝ) ≤ 20
      ∧ srkf45.rejected fDecay Real.rpow (1/100) (0 : ℝ) 1 ![1000]
      ∧ ∃ s, (srkf45.errLoop fDecay Real.rpow (1/100) ((0 : ℝ) + 1) 1 ![1000]).s = some s
          ∧ s = 0.84 * Real.rpow (1/100 * 1
                / (srkf45.errLoop fDecay Real.rpow (1/100) ((0 : ℝ) + 1) 1 ![1000]).mrel) 0.25
          ∧ 0 ≤ s ∧ s < 1
          ∧ (srkf45.body fDecay Real.rpow (1/100) (0 : ℝ) 1 ![1000]).2.h = some (1 * s)
          ∧ 1 * s < 1 :=
  ⟨by norm_num, by norm_num, by norm_num, fDecay_rejected_thousand Real.rpow 0,
    C14_rejected_step_shrinks fDecay 0 1 ![1000] (1/100) (by norm_num) (by norm_num)
      (by norm_num) (fDecay_rejected_thousand Real.rpow 0)⟩

/-- C16. For the scalar linear equation `y' = lambda*y` and `z = h*lambda`, one step
attempt computes `rk5 = y (1 + z + z^2/2 + z^3/6 + z^4/24 + z^5/120 + z^6/2080)` and
`rk4 = y (1 + z + z^2/2 + z^3/6 + z^4/24 + z^5/104)`: they leave the Taylor
polynomial of `y e^z` of degree 5, respectively 4, by `y z^6/2080`, respectively
`y z^5/104`. The difference `rk5 - rk4` is `y z^5 (z/2080 - 1/780)`, but `mrel` is
the absolute value of its integer part, not `|y| |z|^5 |z/2080 - 1/780|`: for
`lambda = 1`, `h = 1`, `y = 3` the code has `mrel = 0` where the formula gives
`1/416`. -/
theorem C16_linear_equation_polynomials (lam a0 h tol : R) (pow : R → R → R)
    (y : Fin 1 → R) :
    (srkf45.rk5 (fLinear lam) (a0 + h) h y 0
        = y 0 * (1 + h * lam + (h * lam) ^ 2 / 2 + (h * lam) ^ 3 / 6 + (h * lam) ^ 4 / 24
            + (h * lam) ^ 5 / 120 + (h * lam) ^ 6 / 2080)
      ∧ srkf45.rk4 (fLinear lam) (a0 + h) h y 0
        = y 0 * (1 + h * lam + (h * lam) ^ 2 / 2 + (h * lam) ^ 3 / 6 + (h * lam) ^ 4 / 24
            + (h * lam) ^ 5 / 104)
      ∧ srkf45.rk5 (fLinear lam) (a0 + h) h y 0
          - y 0 * (1 + h * lam + (h * lam) ^ 2 / 2 + (h * lam) ^ 3 / 6 + (h * lam) ^ 4 / 24
              + (h * lam) ^ 5 / 120)
        = y 0 * (h * lam) ^ 6 / 2080
      ∧ srkf45.rk4 (fLinear lam) (a0 + h) h y 0
          - y 0 * (1 + h * lam + (h * lam) ^ 2 / 2 + (h * lam) ^ 3 / 6 + (h * lam) ^ 4 / 24)
        = y 0 * (h * lam) ^ 5 / 104
      ∧ srkf45.rk5 (fLinear lam) (a0 + h) h y 0 - srkf45.rk4 (fLinear lam) (a0 + h) h y 0
        = y 0 * (h * lam) ^ 5 * (h * lam / 2080 - 1 / 780)
      ∧ (srkf45.errLoop (fLinear lam) pow tol (a0 + h) h y).mrel
        = ((|toInt (y 0 * (h * lam) ^ 5 * (h * lam / 2080 - 1 / 780))| : ℤ) : R))
    ∧ ((srkf45.errLoop (fLinear (1 : ℝ)) Real.rpow 1 (0 + 1) 1 ![3]).mrel = 0
      ∧ |(3 : ℝ)| * |(1 : ℝ) * 1| ^ 5 * |(1 : ℝ) * 1 / 2080 - 1 / 780| = 1/416) := by
  refine ⟨⟨fLinear_rk5 lam _ h y 0, fLinear_rk4 lam _ h y 0, ?_, ?_,
    fLinear_diff lam _ h y 0, fLinear_mrel pow lam tol _ h y⟩, ?_, ?_⟩
  · rw [fLinear_rk5]; ring
  · rw [fLinear_rk4]; ring
  · have e : (![3] : Fin 1 → ℝ) 0 * (1 * 1) ^ 5 * (1 * 1 / 2080 - 1 / 780) = -(1/416) := by
      simp only [Matrix.cons_val_zero]; norm_num
    have := fLinear_mrel_eq Real.rpow 1 1 ((0 : ℝ) + 1) 1 ![3] (-(1/416)) 0 e
      (by rw [abs_neg, abs_of_nonneg (by norm_num)]; norm_num)
      (by rw [abs_neg, abs_of_nonneg (by norm_num)]; norm_num)
    simpa using this
  · rw [abs_of_nonneg (by norm_num : (0 : ℝ) ≤ 3),
      abs_of_nonneg (by norm_num : (0 : ℝ) ≤ 1 * 1),
      abs_of_nonpos (by norm_num : (1 : ℝ) * 1 / 2080 - 1 / 780 ≤ 0)]
    norm_num

/-- C17. For `y' = -y/320` from `y = 12000` at `a = 0` with `b = 0`, `h = 512` and
`tol = 1` (one equation, `a <= b`, `h > 0`, `tol > 0`) every step attempt is
rejected: each attempt is entered at time 0 with state 12000 and a step in
`[500, 540]`, where `mrel > 10*tol`, and the rescaled step is in `[500, 540]`
again. Whatever the number of loop iterations allowed, all of them are used, the
loop has not exited, `a` and `y` are unchanged and no callback follows the first. -/
theorem C17_every_attempt_rejected :
    0 < 1 ∧ (0 : ℝ) ≤ 0 ∧ (0 : ℝ) < 512 ∧ (0 : ℝ) < 1
      ∧ ∀ fuel : ℕ,
          (srkf45 fuel (fLinear (-1/320)) Real.rpow (0 : ℝ) 0 512 ![12000] 1).status
              = srkf45.Status.running
            ∧ (srkf45 fuel (fLinear (-1/320)) Real.rpow (0 : ℝ) 0 512 ![12000] 1).attempts.length
              = fuel
            ∧ (∀ p ∈ (srkf45 fuel (fLinear (-1/320)) Real.rpow (0 : ℝ) 0 512 ![12000] 1).attempts,
                p.1 = 0 ∧ p.2.2 = ![12000] ∧ 500 ≤ p.2.1 ∧ p.2.1 ≤ 540
                  ∧ (srkf45.errLoop (fLinear (-1/320)) Real.rpow 1 (p.1 + p.2.1) p.2.1
                        p.2.2).mrel > 1 * 10)
            ∧ (srkf45 fuel (fLinear (-1/320)) Real.rpow (0 : ℝ) 0 512 ![12000] 1).final.a = 0
            ∧ (srkf45 fuel (fLinear (-1/320)) Real.rpow (0 : ℝ) 0 512 ![12000] 1).final.y
              = ![12000]
            ∧ (callbacks
                (srkf45 fuel (fLinear (-1/320)) Real.rpow (0 : ℝ) 0 512 ![12000] 1).trace).tail
              = [] := by
  refine ⟨Nat.one_pos, le_refl _, by norm_num, by norm_num, fun fuel => ?_⟩
  obtain ⟨i1, i2, i3, i4, i5, i6⟩ :=
    fSlow_loop 0 (le_refl _) fuel ⟨0, some 512, ![12000]⟩ rfl rfl
      ⟨512, rfl, by norm_num, by norm_num⟩
  refine ⟨i1, i5, i6, i3, i4, ?_⟩
  simp only [srkf45, srkf45.initialCallback, callbacks, List.tail_cons]
  exact i2

/-- C18, counterexample. For `y' = y` from `y = 4000` on `[0, 13/3]` with `tol = 1`
the error at the lower end exceeds the tolerance, `rel(1) = 3 > 1`, but the first
midpoint `8/3` has `rel = 0` and raises the lower end: the returned step is larger
than 2, not the near-`tol` value `tol + (b - a - tol)/2^32`. -/
theorem C18_counterexample :
    (0 : ℚ) < 1 ∧ (1 : ℚ) ≤ 13/3 - 0
      ∧ InitialStepSize.rel (fLinear (1 : ℚ)) 0 ![4000] 1 = 3
      ∧ InitialStepSize.rel (fLinear (1 : ℚ)) 0 ![4000] 1 > 1
      ∧ InitialStepSize.rel (fLinear (1 : ℚ)) 0 ![4000] (8/3) = 0
      ∧ 2 < InitialStepSize (fLinear (1 : ℚ)) 0 (13/3) ![4000] 1
      ∧ InitialStepSize (fLinear (1 : ℚ)) 0 (13/3) ![4000] 1 ≠ 1 + (13/3 - 0 - 1) / 2 ^ 32 := by
  refine ⟨by norm_num, by norm_num, by decide!, by decide!, by decide!, by decide!, by decide!⟩

/-- C18, amended. When `tol <= b - a` and the single-trial error is at least `tol` at
every step size of the bracket `[tol, b - a]`, every bisection iteration lowers the
upper end (`l` stays `tol`, `r = tol + (b - a - tol)/2^n` after `n` iterations) and
the returned step is `h0 = tol + (b - a - tol)/2^32`, so
`|h0 - tol| <= (b - a - tol)/2^32`. -/
theorem C18_degenerate_step_when_error_exceeds_everywhere
    (f : Fin N → (Fin (N+1) → R) → R) (a b : R) (y : Fin N → R) (tol : R)
    (hab : tol ≤ b - a)
    (hall : ∀ h, tol ≤ h → h ≤ b - a → tol ≤ InitialStepSize.rel f a y h) :
    (∀ n, (InitialStepSize.bisect (InitialStepSize.rel f a y) a b tol n).l = tol
        ∧ (InitialStepSize.bisect (InitialStepSize.rel f a y) a b tol n).r
            = tol + (b - a - tol) / 2 ^ n)
      ∧ InitialStepSize f a b y tol = tol + (b - a - tol) / 2 ^ 32
      ∧ |InitialStepSize f a b y tol - tol| ≤ (b - a - tol) / 2 ^ 32 := by
  have h0 : InitialStepSize f a b y tol = tol + (b - a - tol) / 2 ^ 32 :=
    (bisect_all_fail (InitialStepSize.rel f a y) a b tol hab hall 31).2.2
  refine ⟨fun n => ⟨(bisect_all_fail _ a b tol hab hall n).1,
    (bisect_all_fail _ a b tol hab hall n).2.1⟩, h0, ?_⟩
  rw [h0, add_sub_cancel_left, abs_of_nonneg]
  exact div_nonneg (by linarith) (by positivity)

/-- C18 amended at a concrete input: `y' = -y` from `y = 780` on `[0, 2]` with
`tol = 1`, where the discrepancy `780 h^5 (h/2080 + 1/780)` is at least 1 for every
`h >= 1`, so `rel(h) >= 1`. -/
theorem C18_degenerate_step_when_error_exceeds_everywhere_witness :
    (1 : ℚ) ≤ 2 - 0
      ∧ (∀ h : ℚ, 1 ≤ h → h ≤ 2 - 0 → 1 ≤ InitialStepSize.rel (fLinear (-1)) 0 ![780] h)
      ∧ InitialStepSize (fLinear (-1)) (0 : ℚ) 2 ![780] 1 = 1 + (2 - 0 - 1) / 2 ^ 32 := by
  have hall : ∀ h : ℚ, 1 ≤ h → h ≤ 2 - 0 →
      1 ≤ InitialStepSize.rel (fLinear (-1)) 0 ![780] h := by
    intro h hl _
    have h0 : (0 : ℚ) ≤ h := le_trans (by norm_num) hl
    rw [fLinear_est_rel]
    apply one_le_cast_abs_toInt
    simp only [Matrix.cons_val_zero]
    rw [fLinear_neg_one_abs h h0, abs_of_nonneg (by norm_num : (0 : ℚ) ≤ 780)]
    have h5 : 1 ≤ h ^ 5 := one_le_pow₀ hl
    nlinarith
  exact ⟨by norm_num, hall,
    (C18_degenerate_step_when_error_exceeds_everywhere (fLinear (-1)) 0 2 ![780] 1
      (by norm_num) hall).2.1⟩

end ClaimsRescale

end RKF45
